import Mathlib

/-!
Verification development for the Microc compiler backend
(three-address-code IR, control-flow-graph construction, liveness
analysis, and Tiny code generation).

The definitions below are shallow embeddings of the Rust source:
  - src/three_addr_code_ir/mod.rs   (IR operand model)
  - src/cfg/mod.rs                  (From<BBFunction> for ControlFlowGraph)
  - src/cfg/liveness.rs             (GEN/KILL decoration, update_in_and_out_sets)
  - src/asm/tiny.rs                 (register allocation and code generation)

Rust HashSet<LValue> is modelled as Finset LValue; LinkedHashMap and
HashMap are modelled as association lists (ordered, first match wins,
key order being insertion order); panics (unwrap, assert, index) are
modelled by Option with none for the panic; the three process-global
pieces of code-generation state (REGISTER_COUNTER, INT_REGISTER_MAP,
FLOAT_REGISTER_MAP) are threaded explicitly as a CodegenState value.
Items whose defining file is not part of the sources (basic_block.rs,
three_address_code.rs) are modelled from the specification and say so
in their doc comments.
-/

namespace Microc

/-! ## Symbols (src/symbol_table/symbol.rs) -/

/-- NumType from symbol.rs: the two numeric kinds. -/
inductive NumType
  | Int
  | Float
deriving DecidableEq, Repr

/-- DataType from symbol.rs: String, or a numeric type. -/
inductive DataType
  | String
  | Num (t : NumType)
deriving DecidableEq, Repr

/-- NonFunctionScopedSymbol from symbol.rs: a symbol declared in the global
or an anonymous scope: a string (name and value), an int, or a float. -/
inductive NonFunctionScopedSymbol
  | String (name : String) (value : String)
  | Int (name : String)
  | Float (name : String)
deriving DecidableEq, Repr

/-- FunctionScopedSymbolType from symbol.rs: parameter or local. -/
inductive FunctionScopedSymbolType
  | Parameter
  | Local
deriving DecidableEq, Repr

/-- FunctionScopedSymbol from symbol.rs: an int or float parameter/local,
identified by kind and index. -/
inductive FunctionScopedSymbol
  | Int (symbol_type : FunctionScopedSymbolType) (index : Nat)
  | Float (symbol_type : FunctionScopedSymbolType) (index : Nat)
deriving DecidableEq, Repr

/-- Symbol from symbol.rs (module data): either a non-function-scoped
(global/anonymous-scope) symbol or a function-scoped symbol. -/
inductive Symbol
  | NonFunctionScopedSymbol (s : NonFunctionScopedSymbol)
  | FunctionScopedSymbol (s : FunctionScopedSymbol)
deriving DecidableEq, Repr

/-- Data type of a NonFunctionScopedSymbol, as symbol.rs classifies it. -/
def NonFunctionScopedSymbol.data_type : NonFunctionScopedSymbol → DataType
  | .String _ _ => DataType.String
  | .Int _ => DataType.Num NumType.Int
  | .Float _ => DataType.Num NumType.Float

/-- is_global_var from three_addr_code_ir/mod.rs (IdentI/IdentF): true
exactly for non-function-scoped symbols. -/
def Symbol.is_global_var : Symbol → Bool
  | .NonFunctionScopedSymbol _ => true
  | _ => false

/-! ## Three-address-code operand model (src/three_addr_code_ir/mod.rs) -/

/-- TempI/TempF are opaque counter-issued numbers; both are modelled as Nat. -/
abbrev Temp := Nat

/-- Label from three_addr_code_ir/mod.rs: an opaque counter-issued number. -/
abbrev TacLabel := Nat

/-- FunctionIdent wraps a function symbol; only its name is relevant to the
claims, so it is modelled as the function's name. -/
abbrev FunctionIdent := String

/-- LValueI from three_addr_code_ir/mod.rs: an int temporary or an int
identifier (the identifier wraps a data symbol). -/
inductive LValueI
  | Temp (t : Temp)
  | Id (id : Symbol)
deriving DecidableEq, Repr

/-- LValueF from three_addr_code_ir/mod.rs: a float temporary or a float
identifier. -/
inductive LValueF
  | Temp (t : Temp)
  | Id (id : Symbol)
deriving DecidableEq, Repr

/-- LValue from three_addr_code_ir/mod.rs: an int- or float-typed lvalue. -/
inductive LValue
  | LValueI (v : LValueI)
  | LValueF (v : LValueF)
deriving DecidableEq, Repr

/-- Opaque stand-in for an f64 literal payload. No claim computes with
float values; the payload only travels through the IR unchanged, so it is
modelled as the literal's bit pattern. -/
structure FloatLit where
  bits : Nat
deriving DecidableEq, Repr

/-- Int-typed binary expression operand (BinaryExprOperandI in
cfg/liveness.rs, RValueI in three_addr_code_ir/mod.rs): an int lvalue or
an i32 literal. -/
inductive BinaryExprOperandI
  | LValue (v : LValueI)
  | RValue (n : Int)
deriving DecidableEq, Repr

/-- Float-typed binary expression operand (BinaryExprOperandF in
cfg/liveness.rs, RValueF in three_addr_code_ir/mod.rs): a float lvalue or
an f64 literal. -/
inductive BinaryExprOperandF
  | LValue (v : LValueF)
  | RValue (x : FloatLit)
deriving DecidableEq, Repr

/-- is_mem_ref from three_addr_code_ir/mod.rs: true exactly when the
operand is an lvalue that is an identifier. -/
def BinaryExprOperandI.is_mem_ref : BinaryExprOperandI → Bool
  | .LValue (.Id _) => true
  | _ => false

/-- is_mem_ref for float operands. -/
def BinaryExprOperandF.is_mem_ref : BinaryExprOperandF → Bool
  | .LValue (.Id _) => true
  | _ => false

/-- ThreeAddressCode: the closed instruction set of the IR
(three_addr_code_ir/three_address_code.rs; the variant list is exactly the
one matched by cfg/liveness.rs, cfg/mod.rs and asm/tiny.rs). -/
inductive ThreeAddressCode
  | AddI (lhs rhs : BinaryExprOperandI) (temp_result : Temp)
  | SubI (lhs rhs : BinaryExprOperandI) (temp_result : Temp)
  | MulI (lhs rhs : BinaryExprOperandI) (temp_result : Temp)
  | DivI (lhs rhs : BinaryExprOperandI) (temp_result : Temp)
  | StoreI (lhs : LValueI) (rhs : BinaryExprOperandI)
  | ReadI (identifier : Symbol)
  | WriteI (identifier : Symbol)
  | AddF (lhs rhs : BinaryExprOperandF) (temp_result : Temp)
  | SubF (lhs rhs : BinaryExprOperandF) (temp_result : Temp)
  | MulF (lhs rhs : BinaryExprOperandF) (temp_result : Temp)
  | DivF (lhs rhs : BinaryExprOperandF) (temp_result : Temp)
  | StoreF (lhs : LValueF) (rhs : BinaryExprOperandF)
  | ReadF (identifier : Symbol)
  | WriteF (identifier : Symbol)
  | WriteS (identifier : Symbol)
  | Label (l : TacLabel)
  | Jump (l : TacLabel)
  | GtI (lhs rhs : BinaryExprOperandI) (label : TacLabel)
  | LtI (lhs rhs : BinaryExprOperandI) (label : TacLabel)
  | GteI (lhs rhs : BinaryExprOperandI) (label : TacLabel)
  | LteI (lhs rhs : BinaryExprOperandI) (label : TacLabel)
  | NeI (lhs rhs : BinaryExprOperandI) (label : TacLabel)
  | EqI (lhs rhs : BinaryExprOperandI) (label : TacLabel)
  | GtF (lhs rhs : BinaryExprOperandF) (label : TacLabel)
  | LtF (lhs rhs : BinaryExprOperandF) (label : TacLabel)
  | GteF (lhs rhs : BinaryExprOperandF) (label : TacLabel)
  | LteF (lhs rhs : BinaryExprOperandF) (label : TacLabel)
  | NeF (lhs rhs : BinaryExprOperandF) (label : TacLabel)
  | EqF (lhs rhs : BinaryExprOperandF) (label : TacLabel)
  | PushI (op : BinaryExprOperandI)
  | PushF (op : BinaryExprOperandF)
  | PopI (op : LValueI)
  | PopF (op : LValueF)
  | Jsr (f : FunctionIdent)
  | Ret
  | FunctionLabel (f : FunctionIdent)
  | Link (f : FunctionIdent)
  | Unlink
deriving DecidableEq, Repr

/-- Modelled from the spec: is_unconditional_branch lives in the absent
three_address_code.rs. Per the spec a fall-through edge is added unless the
block's final instruction is an unconditional jump, and a block ending in
Ret has no outgoing edges, so the predicate holds for Jump and Ret. -/
def ThreeAddressCode.is_unconditional_branch : ThreeAddressCode → Bool
  | .Jump _ => true
  | .Ret => true
  | _ => false

/-- Modelled from the spec: get_label_if_branch_or_jump lives in the absent
three_address_code.rs. It returns the explicit branch/jump target label of
an unconditional jump or a conditional (relational) branch. -/
def ThreeAddressCode.get_label_if_branch_or_jump : ThreeAddressCode → Option TacLabel
  | .Jump l => some l
  | .GtI _ _ l => some l
  | .LtI _ _ l => some l
  | .GteI _ _ l => some l
  | .LteI _ _ l => some l
  | .NeI _ _ l => some l
  | .EqI _ _ l => some l
  | .GtF _ _ l => some l
  | .LtF _ _ l => some l
  | .GteF _ _ l => some l
  | .LteF _ _ l => some l
  | .NeF _ _ l => some l
  | .EqF _ _ l => some l
  | _ => none

/-- Modelled from the spec: is_bb_terminator lives in the absent
basic_block.rs. Blocks close at any branch, jump, or return instruction. -/
def is_bb_terminator (tac : ThreeAddressCode) : Bool :=
  tac.get_label_if_branch_or_jump.isSome || tac.is_unconditional_branch

/-! ## Association lists standing in for HashMap / LinkedHashMap -/

/-- First-match lookup in an association list. -/
def assocFind {α : Type} (k : Nat) : List (Nat × α) → Option α
  | [] => none
  | p :: rest => if p.1 = k then some p.2 else assocFind k rest

/-- Map insert with HashMap overwrite semantics: replace the value of an
existing key in place, otherwise append the new binding at the end (the
position a LinkedHashMap gives a fresh key). -/
def mapInsert {α : Type} (m : List (Nat × α)) (k : Nat) (v : α) : List (Nat × α) :=
  match assocFind k m with
  | some _ => m.map fun p => if p.1 = k then (p.1, v) else p
  | none => m ++ [(k, v)]

/-! ## Basic blocks and CFG (src/cfg/mod.rs; block type modelled) -/

/-- BBLabel from the absent basic_block.rs: a block number. -/
abbrev BBLabel := Nat

/-- Modelled from the spec: ImmutableBasicBlock lives in the absent
basic_block.rs; cfg/mod.rs uses only its label, its instruction sequence
(via into_parts) and its last instruction. -/
structure ImmutableBasicBlock where
  label : BBLabel
  seq : List ThreeAddressCode
deriving DecidableEq, Repr

/-- The block's final instruction; none models the panic the source's
last() would be on an empty block (the spec guarantees blocks are never
empty). -/
def ImmutableBasicBlock.lastTac (bb : ImmutableBasicBlock) : Option ThreeAddressCode :=
  bb.seq.getLast?

/-- Modelled from the spec: BBFunction lives in the absent basic_block.rs.
Its into_parts returns the ordered block map and the map from TAC label to
the label of the block that TAC label starts. -/
structure BBFunction where
  bbs : List (BBLabel × ImmutableBasicBlock)
  tac_label_to_bb_label_map : List (TacLabel × BBLabel)
deriving DecidableEq, Repr

/-- ControlFlowGraph from cfg/mod.rs: the ordered successor map bb_map and
the ordered block map bbs. -/
structure ControlFlowGraph where
  bb_map : List (BBLabel × List BBLabel)
  bbs : List (BBLabel × ImmutableBasicBlock)
deriving DecidableEq, Repr

/-- create_edge from cfg/mod.rs (From<BBFunction>):
bb_map.entry(from).or_insert(vec![]).push(to). -/
def create_edge (bb_map : List (BBLabel × List BBLabel)) (f t : BBLabel) :
    List (BBLabel × List BBLabel) :=
  match assocFind f bb_map with
  | some _ => bb_map.map fun p => if p.1 = f then (p.1, p.2 ++ [t]) else p
  | none => bb_map ++ [(f, [t])]

/-- The loop body of From<BBFunction> for ControlFlowGraph (cfg/mod.rs):
walk the blocks in order carrying the previous block's label and whether it
ended in an unconditional jump; add the fall-through edge from the previous
block unless it ended in an unconditional jump, then the explicit edge to
the jump/branch target of the current block. none models the panics on an
empty block and on an unmapped target label. -/
def cfgBuildLoop (labelMap : List (TacLabel × BBLabel)) :
    List (BBLabel × ImmutableBasicBlock) → Option BBLabel → Bool →
    List (BBLabel × List BBLabel) → Option (List (BBLabel × List BBLabel))
  | [], _, _, bb_map => some bb_map
  | (bb_label, bb) :: rest, prev_bb_label, prev_bb_has_unconditional_jump, bb_map =>
    match bb.lastTac with
    | none => none
    | some last_tac =>
      let m1 :=
        match prev_bb_label with
        | some prev => if prev_bb_has_unconditional_jump then bb_map else create_edge bb_map prev bb_label
        | none => bb_map
      match last_tac.get_label_if_branch_or_jump with
      | some tac_label =>
        match assocFind tac_label labelMap with
        | none => none
        | some target =>
          cfgBuildLoop labelMap rest (some bb_label) last_tac.is_unconditional_branch
            (create_edge m1 bb_label target)
      | none =>
        cfgBuildLoop labelMap rest (some bb_label) last_tac.is_unconditional_branch m1

/-- From<BBFunction> for ControlFlowGraph (cfg/mod.rs). -/
def cfgOfBBFunction (f : BBFunction) : Option ControlFlowGraph :=
  (cfgBuildLoop f.tac_label_to_bb_label_map f.bbs none false []).map fun m =>
    { bb_map := m, bbs := f.bbs }

/-- The successor list a bb_map associates to a block label (empty when the
label is not a key). -/
def edgesOf (bb_map : List (BBLabel × List BBLabel)) (x : BBLabel) : List BBLabel :=
  (assocFind x bb_map).getD []

/-! ## Liveness decoration (src/cfg/liveness.rs) -/

/-- LivenessDecoratedThreeAddressCode from cfg/liveness.rs: a TAC
instruction with its GEN, KILL, IN and OUT sets. -/
structure LivenessDecoratedThreeAddressCode where
  tac : ThreeAddressCode
  gen_set : Finset LValue
  kill_set : Finset LValue
  in_set : Finset LValue
  out_set : Finset LValue
deriving DecidableEq

/-- The set Jsr GENs and Ret initially OUTs in cfg/liveness.rs: all global
symbols of the program filtered to int or float data type, as an int or
float identifier lvalue respectively (SymbolTable::global_symbols is
modelled as the globals list argument). -/
def jsrRetGlobalSet (globals : List NonFunctionScopedSymbol) : Finset LValue :=
  (globals.filterMap fun symbol =>
    match symbol.data_type with
    | DataType.Num NumType.Int =>
      some (LValue.LValueI (LValueI.Id (Symbol.NonFunctionScopedSymbol symbol)))
    | DataType.Num NumType.Float =>
      some (LValue.LValueF (LValueF.Id (Symbol.NonFunctionScopedSymbol symbol)))
    | _ => none).toFinset

/-- From<ThreeAddressCode> for LivenessDecoratedThreeAddressCode
(cfg/liveness.rs): structurally derive GEN and KILL, start IN empty, and
start OUT empty except for Ret, whose OUT is every global. -/
def livenessDecorate (globals : List NonFunctionScopedSymbol) (tac : ThreeAddressCode) :
    LivenessDecoratedThreeAddressCode :=
  match tac with
  | .AddI lhs rhs temp_result | .SubI lhs rhs temp_result
  | .MulI lhs rhs temp_result | .DivI lhs rhs temp_result =>
    let gen :=
      match lhs with
      | .LValue lvalue => ({LValue.LValueI lvalue} : Finset LValue)
      | _ => ∅
    let gen :=
      match rhs with
      | .LValue lvalue => insert (LValue.LValueI lvalue) gen
      | _ => gen
    { tac := tac, gen_set := gen,
      kill_set := {LValue.LValueI (LValueI.Temp temp_result)},
      in_set := ∅, out_set := ∅ }
  | .StoreI lhs rhs =>
    let gen :=
      match rhs with
      | .LValue lvalue => ({LValue.LValueI lvalue} : Finset LValue)
      | _ => ∅
    { tac := tac, gen_set := gen, kill_set := {LValue.LValueI lhs},
      in_set := ∅, out_set := ∅ }
  | .ReadI identifier =>
    { tac := tac, gen_set := ∅,
      kill_set := {LValue.LValueI (LValueI.Id identifier)},
      in_set := ∅, out_set := ∅ }
  | .WriteI identifier =>
    { tac := tac, gen_set := {LValue.LValueI (LValueI.Id identifier)},
      kill_set := ∅, in_set := ∅, out_set := ∅ }
  | .AddF lhs rhs temp_result | .SubF lhs rhs temp_result
  | .MulF lhs rhs temp_result | .DivF lhs rhs temp_result =>
    let gen :=
      match lhs with
      | .LValue lvalue => ({LValue.LValueF lvalue} : Finset LValue)
      | _ => ∅
    let gen :=
      match rhs with
      | .LValue lvalue => insert (LValue.LValueF lvalue) gen
      | _ => gen
    { tac := tac, gen_set := gen,
      kill_set := {LValue.LValueF (LValueF.Temp temp_result)},
      in_set := ∅, out_set := ∅ }
  | .StoreF lhs rhs =>
    let gen :=
      match rhs with
      | .LValue lvalue => ({LValue.LValueF lvalue} : Finset LValue)
      | _ => ∅
    { tac := tac, gen_set := gen, kill_set := {LValue.LValueF lhs},
      in_set := ∅, out_set := ∅ }
  | .ReadF identifier =>
    { tac := tac, gen_set := ∅,
      kill_set := {LValue.LValueF (LValueF.Id identifier)},
      in_set := ∅, out_set := ∅ }
  | .WriteF identifier =>
    { tac := tac, gen_set := {LValue.LValueF (LValueF.Id identifier)},
      kill_set := ∅, in_set := ∅, out_set := ∅ }
  | .GtI lhs rhs _ | .LtI lhs rhs _ | .GteI lhs rhs _
  | .LteI lhs rhs _ | .NeI lhs rhs _ | .EqI lhs rhs _ =>
    let gen :=
      match lhs with
      | .LValue lvalue => ({LValue.LValueI lvalue} : Finset LValue)
      | _ => ∅
    let gen :=
      match rhs with
      | .LValue lvalue => insert (LValue.LValueI lvalue) gen
      | _ => gen
    { tac := tac, gen_set := gen, kill_set := ∅, in_set := ∅, out_set := ∅ }
  | .GtF lhs rhs _ | .LtF lhs rhs _ | .GteF lhs rhs _
  | .LteF lhs rhs _ | .NeF lhs rhs _ | .EqF lhs rhs _ =>
    let gen :=
      match lhs with
      | .LValue lvalue => ({LValue.LValueF lvalue} : Finset LValue)
      | _ => ∅
    let gen :=
      match rhs with
      | .LValue lvalue => insert (LValue.LValueF lvalue) gen
      | _ => gen
    { tac := tac, gen_set := gen, kill_set := ∅, in_set := ∅, out_set := ∅ }
  | .PushI op =>
    let gen :=
      match op with
      | .LValue lvalue => ({LValue.LValueI lvalue} : Finset LValue)
      | _ => ∅
    { tac := tac, gen_set := gen, kill_set := ∅, in_set := ∅, out_set := ∅ }
  | .PushF op =>
    let gen :=
      match op with
      | .LValue lvalue => ({LValue.LValueF lvalue} : Finset LValue)
      | _ => ∅
    { tac := tac, gen_set := gen, kill_set := ∅, in_set := ∅, out_set := ∅ }
  | .PopI op =>
    { tac := tac, gen_set := ∅, kill_set := {LValue.LValueI op},
      in_set := ∅, out_set := ∅ }
  | .PopF op =>
    { tac := tac, gen_set := ∅, kill_set := {LValue.LValueF op},
      in_set := ∅, out_set := ∅ }
  | .Jsr _ =>
    { tac := tac, gen_set := jsrRetGlobalSet globals, kill_set := ∅,
      in_set := ∅, out_set := ∅ }
  | .Ret =>
    { tac := tac, gen_set := ∅, kill_set := ∅, in_set := ∅,
      out_set := jsrRetGlobalSet globals }
  | _ =>
    { tac := tac, gen_set := ∅, kill_set := ∅, in_set := ∅, out_set := ∅ }

/-- LivenessDecoratedImmutableBasicBlock from cfg/liveness.rs. -/
structure LivenessDecoratedImmutableBasicBlock where
  label : BBLabel
  seq : List LivenessDecoratedThreeAddressCode
deriving DecidableEq

/-- in_set of a decorated block: the IN set of its first instruction. -/
def LivenessDecoratedImmutableBasicBlock.in_set
    (bb : LivenessDecoratedImmutableBasicBlock) : Finset LValue :=
  match bb.seq.head? with
  | some tac => tac.in_set
  | none => ∅

/-- From<ImmutableBasicBlock> for LivenessDecoratedImmutableBasicBlock. -/
def livenessDecorateBB (globals : List NonFunctionScopedSymbol)
    (bb : ImmutableBasicBlock) : LivenessDecoratedImmutableBasicBlock :=
  { label := bb.label, seq := bb.seq.map (livenessDecorate globals) }

/-- LivenessDecoratedControlFlowGraph from cfg/liveness.rs. -/
structure LivenessDecoratedControlFlowGraph where
  bb_map : List (BBLabel × List BBLabel)
  bbs : List (BBLabel × LivenessDecoratedImmutableBasicBlock)
deriving DecidableEq

/-- From<ControlFlowGraph> for LivenessDecoratedControlFlowGraph. -/
def livenessCfgOfCfg (globals : List NonFunctionScopedSymbol)
    (cfg : ControlFlowGraph) : LivenessDecoratedControlFlowGraph :=
  { bb_map := cfg.bb_map,
    bbs := cfg.bbs.map fun p => (p.1, livenessDecorateBB globals p.2) }

/-- The out_set the body of update_in_and_out_sets computes for one
worklist node and then drops: the successor node's IN set (which the
source resets to the empty set at the end of every iteration, so it is
always empty here) unless the node is an unconditional jump, plus, for a
block terminator, the IN sets of the successor blocks. -/
def updatePassNodeOutSet (cfg : LivenessDecoratedControlFlowGraph)
    (bb_label : BBLabel) (tac : LivenessDecoratedThreeAddressCode)
    (successor_tac_node_in_set : Finset LValue) : Finset LValue :=
  let out1 : Finset LValue :=
    if tac.tac.is_unconditional_branch then ∅ else successor_tac_node_in_set
  if is_bb_terminator tac.tac then
    (edgesOf cfg.bb_map bb_label).foldl
      (fun acc neighboring_bb =>
        match assocFind neighboring_bb cfg.bbs with
        | some neighbor => acc ∪ neighbor.in_set
        | none => acc)
      out1
  else out1

/-- One pass of the loop in update_in_and_out_sets (cfg/liveness.rs): the
worklist is every instruction of every block, reversed; for each node an
out set is computed into a local variable that the body never writes back,
the in set recomputation the comments describe is absent, and the updated
flag is never set. The pass therefore returns the graph unchanged together
with updated = false; the discarded out sets are computed here exactly as
in the source. -/
def updatePass (cfg : LivenessDecoratedControlFlowGraph) :
    LivenessDecoratedControlFlowGraph × Bool :=
  let worklist :=
    ((cfg.bbs.map fun p => p.2.seq.map fun tac => (p.1, tac)).flatten).reverse
  let updated := false
  let _discarded_out_sets :=
    worklist.foldl
      (fun (acc : List (Finset LValue) × Finset LValue) node =>
        let out_set := updatePassNodeOutSet cfg node.1 node.2 acc.2
        -- successor_tac_node_in_set is reset to the empty set at the end
        -- of every iteration of the source loop.
        (acc.1 ++ [out_set], (∅ : Finset LValue)))
      ([], (∅ : Finset LValue))
  (cfg, updated)

/-- update_in_and_out_sets from cfg/liveness.rs: repeat the pass until a
pass reports no update. The pass never reports an update (the source never
sets the flag), so the loop exits after its first iteration and the graph
is returned with every IN and OUT set exactly as it came in. -/
def updateInAndOutSets (cfg : LivenessDecoratedControlFlowGraph) :
    LivenessDecoratedControlFlowGraph :=
  let result := updatePass cfg
  -- the source loops while `updated` holds; updatePass always returns
  -- false, so no further pass runs.
  result.1

/-! ## Tiny code generation (src/asm/tiny.rs) -/

/-- Register from asm/tiny.rs: a numbered target-machine register. -/
abbrev Register := Nat

/-- Label on the Tiny side (asm/tiny.rs), copied from the TAC label. -/
abbrev TinyLabel := Nat

/-- Register::new from asm/tiny.rs: fetch-and-increment REGISTER_COUNTER
and assert the fetched value is below 200; none models the panic of the
failed assertion. The argument is the current counter; on success the
fetched value is the register number and the counter advances by one. -/
def Register.new (counter : Nat) : Option (Register × Nat) :=
  if counter < 200 then some (counter, counter + 1) else none

/-- The process-global mutable code-generation state of asm/tiny.rs
(REGISTER_COUNTER, INT_REGISTER_MAP, FLOAT_REGISTER_MAP), threaded
explicitly. -/
structure CodegenState where
  register_counter : Nat
  int_register_map : List (Temp × Register)
  float_register_map : List (Temp × Register)
deriving DecidableEq, Repr

/-- The state at process start: counter 0 and empty maps. -/
def initialCodegenState : CodegenState :=
  { register_counter := 0, int_register_map := [], float_register_map := [] }

/-- Opmr from asm/tiny.rs: a register or a memory identifier. -/
inductive Opmr
  | Reg (r : Register)
  | Id (s : Symbol)
deriving DecidableEq, Repr

/-- OpmrIL from asm/tiny.rs: an int literal or a location. -/
inductive OpmrIL
  | Literal (n : Int)
  | Location (o : Opmr)
deriving DecidableEq, Repr

/-- OpmrFL from asm/tiny.rs: a float literal or a location. -/
inductive OpmrFL
  | Literal (x : FloatLit)
  | Location (o : Opmr)
deriving DecidableEq, Repr

/-- OpmrL from asm/tiny.rs: an int- or float-typed operand. -/
inductive OpmrL
  | Int (o : OpmrIL)
  | Float (o : OpmrFL)
deriving DecidableEq, Repr

/-- Sid from asm/tiny.rs: a string declaration's name and value. -/
structure Sid where
  id : String
  value : String
deriving DecidableEq, Repr

/-- TinyCode from asm/tiny.rs: the target instruction set. -/
inductive TinyCode
  | Var (s : String)
  | Str (s : Sid)
  | Label (l : TinyLabel)
  | Move (src : OpmrL) (dst : Opmr)
  | AddI (src : OpmrIL) (dst : Register)
  | SubI (src : OpmrIL) (dst : Register)
  | MulI (src : OpmrIL) (dst : Register)
  | DivI (src : OpmrIL) (dst : Register)
  | AddF (src : OpmrFL) (dst : Register)
  | SubF (src : OpmrFL) (dst : Register)
  | MulF (src : OpmrFL) (dst : Register)
  | DivF (src : OpmrFL) (dst : Register)
  | IncI (r : Register)
  | DecI (r : Register)
  | CmpI (src : OpmrIL) (r : Register)
  | CmpF (src : OpmrFL) (r : Register)
  | Push (o : Option OpmrL)
  | Pop (o : Option Opmr)
  | Jsr (l : TinyLabel)
  | Ret
  | Link (n : Option Nat)
  | Unlink
  | Jmp (l : TinyLabel)
  | Jgt (l : TinyLabel)
  | Jlt (l : TinyLabel)
  | Jge (l : TinyLabel)
  | Jle (l : TinyLabel)
  | Jeq (l : TinyLabel)
  | Jne (l : TinyLabel)
  | ReadI (o : Opmr)
  | ReadF (o : Opmr)
  | WriteI (o : Opmr)
  | WriteF (o : Opmr)
  | WriteS (s : Symbol)
  | Halt
deriving DecidableEq, Repr

/-- True exactly for a Move instruction. -/
def TinyCode.isMove : TinyCode → Bool
  | .Move _ _ => true
  | _ => false

/-- True when a Move has both its source and destination in memory (the
target ISA forbids such a move). -/
def TinyCode.isMemToMemMove : TinyCode → Bool
  | .Move (.Int (.Location (.Id _))) (.Id _) => true
  | .Move (.Float (.Location (.Id _))) (.Id _) => true
  | _ => false

/-- move_binary_op_tac_operand_to_register from asm/tiny.rs, specialized
to an int-typed operand (the source takes the untyped BinaryExprOperand
union; an int instruction's operands only exercise its LValueI and
int-literal arms): allocate a fresh register and emit the move of the
operand's current value into it. none models the unwrap panic on a
temporary with no bound register and the register-pool assertion. -/
def move_binary_op_tac_operand_to_register_int (st : CodegenState)
    (operand : BinaryExprOperandI) : Option (Register × TinyCode × CodegenState) :=
  match operand with
  | .LValue (.Temp temp) =>
    match assocFind temp st.int_register_map with
    | none => none
    | some existing_reg =>
      (Register.new st.register_counter).map fun p =>
        (p.1, TinyCode.Move (OpmrL.Int (OpmrIL.Location (Opmr.Reg existing_reg)))
                (Opmr.Reg p.1),
         { st with register_counter := p.2 })
  | .LValue (.Id id) =>
    (Register.new st.register_counter).map fun p =>
      (p.1, TinyCode.Move (OpmrL.Int (OpmrIL.Location (Opmr.Id id))) (Opmr.Reg p.1),
       { st with register_counter := p.2 })
  | .RValue n =>
    (Register.new st.register_counter).map fun p =>
      (p.1, TinyCode.Move (OpmrL.Int (OpmrIL.Literal n)) (Opmr.Reg p.1),
       { st with register_counter := p.2 })

/-- move_binary_op_tac_operand_to_register from asm/tiny.rs, specialized
to a float-typed operand. -/
def move_binary_op_tac_operand_to_register_float (st : CodegenState)
    (operand : BinaryExprOperandF) : Option (Register × TinyCode × CodegenState) :=
  match operand with
  | .LValue (.Temp temp) =>
    match assocFind temp st.float_register_map with
    | none => none
    | some existing_reg =>
      (Register.new st.register_counter).map fun p =>
        (p.1, TinyCode.Move (OpmrL.Float (OpmrFL.Location (Opmr.Reg existing_reg)))
                (Opmr.Reg p.1),
         { st with register_counter := p.2 })
  | .LValue (.Id id) =>
    (Register.new st.register_counter).map fun p =>
      (p.1, TinyCode.Move (OpmrL.Float (OpmrFL.Location (Opmr.Id id))) (Opmr.Reg p.1),
       { st with register_counter := p.2 })
  | .RValue x =>
    (Register.new st.register_counter).map fun p =>
      (p.1, TinyCode.Move (OpmrL.Float (OpmrFL.Literal x)) (Opmr.Reg p.1),
       { st with register_counter := p.2 })

/-- binary_op_tac_operand_to_register_or_move from asm/tiny.rs, specialized
to an int-typed operand: a register-resident temporary reuses its register
with no move; anything else goes through
move_binary_op_tac_operand_to_register. none models the unwrap panic on a
temporary with no bound register. -/
def binary_op_tac_operand_to_register_or_move_int (st : CodegenState)
    (operand : BinaryExprOperandI) :
    Option (Register × Option TinyCode × CodegenState) :=
  match operand with
  | .LValue (.Temp temp) =>
    match assocFind temp st.int_register_map with
    | some register => some (register, none, st)
    | none => none
  | _ =>
    (move_binary_op_tac_operand_to_register_int st operand).map fun p =>
      (p.1, some p.2.1, p.2.2)

/-- binary_op_tac_operand_to_register_or_move from asm/tiny.rs, specialized
to a float-typed operand. -/
def binary_op_tac_operand_to_register_or_move_float (st : CodegenState)
    (operand : BinaryExprOperandF) :
    Option (Register × Option TinyCode × CodegenState) :=
  match operand with
  | .LValue (.Temp temp) =>
    match assocFind temp st.float_register_map with
    | some register => some (register, none, st)
    | none => none
  | _ =>
    (move_binary_op_tac_operand_to_register_float st operand).map fun p =>
      (p.1, some p.2.1, p.2.2)

/-- binary_op_tac_operand_to_opmrl from asm/tiny.rs followed by
into_int_opmrl, specialized to an int-typed operand: convert to a
literal-or-location form without forcing register residency. none models
the unwrap panic on a temporary with no bound register. -/
def binary_op_tac_operand_to_opmrl_int (st : CodegenState) :
    BinaryExprOperandI → Option OpmrIL
  | .LValue (.Temp temp) =>
    (assocFind temp st.int_register_map).map fun existing_reg =>
      OpmrIL.Location (Opmr.Reg existing_reg)
  | .LValue (.Id id) => some (OpmrIL.Location (Opmr.Id id))
  | .RValue n => some (OpmrIL.Literal n)

/-- binary_op_tac_operand_to_opmrl from asm/tiny.rs followed by
into_float_opmrl, specialized to a float-typed operand. -/
def binary_op_tac_operand_to_opmrl_float (st : CodegenState) :
    BinaryExprOperandF → Option OpmrFL
  | .LValue (.Temp temp) =>
    (assocFind temp st.float_register_map).map fun existing_reg =>
      OpmrFL.Location (Opmr.Reg existing_reg)
  | .LValue (.Id id) => some (OpmrFL.Location (Opmr.Id id))
  | .RValue x => some (OpmrFL.Literal x)

/-- From<ThreeAddressCode> for TinyCodeSequence (asm/tiny.rs): lower one
TAC instruction to a sequence of Tiny instructions, reading and updating
the code-generation state. Variants the source From impl has no arm for
lower to none. -/
def tinyCodeOfTac (st : CodegenState) (tac : ThreeAddressCode) :
    Option (List TinyCode × CodegenState) :=
  match tac with
  | .AddI lhs rhs temporary => do
    let (operand1, move_code, st1) ← binary_op_tac_operand_to_register_or_move_int st lhs
    let operand2 ← binary_op_tac_operand_to_opmrl_int st1 rhs
    let add_code := TinyCode.AddI operand2 operand1
    let st2 := { st1 with int_register_map := mapInsert st1.int_register_map temporary operand1 }
    some ((match move_code with | some mv => [mv] | none => []) ++ [add_code], st2)
  | .SubI lhs rhs temporary => do
    let (operand1, move_code, st1) ← binary_op_tac_operand_to_register_or_move_int st lhs
    let operand2 ← binary_op_tac_operand_to_opmrl_int st1 rhs
    let sub_code := TinyCode.SubI operand2 operand1
    let st2 := { st1 with int_register_map := mapInsert st1.int_register_map temporary operand1 }
    some ((match move_code with | some mv => [mv] | none => []) ++ [sub_code], st2)
  | .MulI lhs rhs temporary => do
    let (operand1, move_code, st1) ← binary_op_tac_operand_to_register_or_move_int st lhs
    let operand2 ← binary_op_tac_operand_to_opmrl_int st1 rhs
    let mul_code := TinyCode.MulI operand2 operand1
    let st2 := { st1 with int_register_map := mapInsert st1.int_register_map temporary operand1 }
    some ((match move_code with | some mv => [mv] | none => []) ++ [mul_code], st2)
  | .DivI lhs rhs temporary => do
    let (operand1, move_code, st1) ← binary_op_tac_operand_to_register_or_move_int st lhs
    let operand2 ← binary_op_tac_operand_to_opmrl_int st1 rhs
    let div_code := TinyCode.DivI operand2 operand1
    let st2 := { st1 with int_register_map := mapInsert st1.int_register_map temporary operand1 }
    some ((match move_code with | some mv => [mv] | none => []) ++ [div_code], st2)
  | .StoreI lhs rhs => do
    let (operand1, is_lhs_mem_ref, st1) ←
      match lhs with
      | .Temp temp =>
        match assocFind temp st.int_register_map with
        | some r =>
          some (Opmr.Reg r, false,
            { st with int_register_map := mapInsert st.int_register_map temp r })
        | none =>
          (Register.new st.register_counter).map fun p =>
            (Opmr.Reg p.1, false,
             { st with register_counter := p.2,
                       int_register_map := mapInsert st.int_register_map temp p.1 })
      | .Id id => some (Opmr.Id id, true, st)
    if !is_lhs_mem_ref || !rhs.is_mem_ref then
      let operand2 ← binary_op_tac_operand_to_opmrl_int st1 rhs
      some ([TinyCode.Move (OpmrL.Int operand2) operand1], st1)
    else
      let (operand2, operand_move_code, st2) ← move_binary_op_tac_operand_to_register_int st1 rhs
      some ([operand_move_code,
             TinyCode.Move (OpmrL.Int (OpmrIL.Location (Opmr.Reg operand2))) operand1], st2)
  | .ReadI identifier => some ([TinyCode.ReadI (Opmr.Id identifier)], st)
  | .WriteI identifier => some ([TinyCode.WriteI (Opmr.Id identifier)], st)
  | .AddF lhs rhs temporary => do
    let (operand1, move_code, st1) ← binary_op_tac_operand_to_register_or_move_float st lhs
    let operand2 ← binary_op_tac_operand_to_opmrl_float st1 rhs
    let add_code := TinyCode.AddF operand2 operand1
    let st2 := { st1 with float_register_map := mapInsert st1.float_register_map temporary operand1 }
    some ((match move_code with | some mv => [mv] | none => []) ++ [add_code], st2)
  | .SubF lhs rhs temporary => do
    let (operand1, move_code, st1) ← binary_op_tac_operand_to_register_or_move_float st lhs
    let operand2 ← binary_op_tac_operand_to_opmrl_float st1 rhs
    let sub_code := TinyCode.SubF operand2 operand1
    let st2 := { st1 with float_register_map := mapInsert st1.float_register_map temporary operand1 }
    some ((match move_code with | some mv => [mv] | none => []) ++ [sub_code], st2)
  | .MulF lhs rhs temporary => do
    let (operand1, move_code, st1) ← binary_op_tac_operand_to_register_or_move_float st lhs
    let operand2 ← binary_op_tac_operand_to_opmrl_float st1 rhs
    let mul_code := TinyCode.MulF operand2 operand1
    let st2 := { st1 with float_register_map := mapInsert st1.float_register_map temporary operand1 }
    some ((match move_code with | some mv => [mv] | none => []) ++ [mul_code], st2)
  | .DivF lhs rhs temporary => do
    let (operand1, move_code, st1) ← binary_op_tac_operand_to_register_or_move_float st lhs
    let operand2 ← binary_op_tac_operand_to_opmrl_float st1 rhs
    let div_code := TinyCode.DivF operand2 operand1
    let st2 := { st1 with float_register_map := mapInsert st1.float_register_map temporary operand1 }
    some ((match move_code with | some mv => [mv] | none => []) ++ [div_code], st2)
  | .StoreF lhs rhs => do
    let (operand1, is_lhs_mem_ref, st1) ←
      match lhs with
      | .Temp temp =>
        match assocFind temp st.float_register_map with
        | some r =>
          some (Opmr.Reg r, false,
            { st with float_register_map := mapInsert st.float_register_map temp r })
        | none =>
          (Register.new st.register_counter).map fun p =>
            (Opmr.Reg p.1, false,
             { st with register_counter := p.2,
                       float_register_map := mapInsert st.float_register_map temp p.1 })
      | .Id id => some (Opmr.Id id, true, st)
    if !is_lhs_mem_ref || !rhs.is_mem_ref then
      let operand2 ← binary_op_tac_operand_to_opmrl_float st1 rhs
      some ([TinyCode.Move (OpmrL.Float operand2) operand1], st1)
    else
      let (operand2, operand_move_code, st2) ← move_binary_op_tac_operand_to_register_float st1 rhs
      some ([operand_move_code,
             TinyCode.Move (OpmrL.Float (OpmrFL.Location (Opmr.Reg operand2))) operand1], st2)
  | .ReadF identifier => some ([TinyCode.ReadF (Opmr.Id identifier)], st)
  | .WriteF identifier => some ([TinyCode.WriteF (Opmr.Id identifier)], st)
  | .WriteS identifier => some ([TinyCode.WriteS identifier], st)
  | .Label label => some ([TinyCode.Label label], st)
  | .Jump label => some ([TinyCode.Jmp label], st)
  | .GtI lhs rhs label => do
    let operand1 ← binary_op_tac_operand_to_opmrl_int st lhs
    let (operand2, move_code, st1) ← binary_op_tac_operand_to_register_or_move_int st rhs
    some ((match move_code with | some mv => [mv] | none => []) ++
          [TinyCode.CmpI operand1 operand2, TinyCode.Jgt label], st1)
  | .LtI lhs rhs label => do
    let operand1 ← binary_op_tac_operand_to_opmrl_int st lhs
    let (operand2, move_code, st1) ← binary_op_tac_operand_to_register_or_move_int st rhs
    some ((match move_code with | some mv => [mv] | none => []) ++
          [TinyCode.CmpI operand1 operand2, TinyCode.Jlt label], st1)
  | .GteI lhs rhs label => do
    let operand1 ← binary_op_tac_operand_to_opmrl_int st lhs
    let (operand2, move_code, st1) ← binary_op_tac_operand_to_register_or_move_int st rhs
    some ((match move_code with | some mv => [mv] | none => []) ++
          [TinyCode.CmpI operand1 operand2, TinyCode.Jge label], st1)
  | .LteI lhs rhs label => do
    let operand1 ← binary_op_tac_operand_to_opmrl_int st lhs
    let (operand2, move_code, st1) ← binary_op_tac_operand_to_register_or_move_int st rhs
    some ((match move_code with | some mv => [mv] | none => []) ++
          [TinyCode.CmpI operand1 operand2, TinyCode.Jle label], st1)
  | .NeI lhs rhs label => do
    let operand1 ← binary_op_tac_operand_to_opmrl_int st lhs
    let (operand2, move_code, st1) ← binary_op_tac_operand_to_register_or_move_int st rhs
    some ((match move_code with | some mv => [mv] | none => []) ++
          [TinyCode.CmpI operand1 operand2, TinyCode.Jne label], st1)
  | .EqI lhs rhs label => do
    let operand1 ← binary_op_tac_operand_to_opmrl_int st lhs
    let (operand2, move_code, st1) ← binary_op_tac_operand_to_register_or_move_int st rhs
    some ((match move_code with | some mv => [mv] | none => []) ++
          [TinyCode.CmpI operand1 operand2, TinyCode.Jeq label], st1)
  | .GtF lhs rhs label => do
    let operand1 ← binary_op_tac_operand_to_opmrl_float st lhs
    let (operand2, move_code, st1) ← binary_op_tac_operand_to_register_or_move_float st rhs
    some ((match move_code with | some mv => [mv] | none => []) ++
          [TinyCode.CmpF operand1 operand2, TinyCode.Jgt label], st1)
  | .LtF lhs rhs label => do
    let operand1 ← binary_op_tac_operand_to_opmrl_float st lhs
    let (operand2, move_code, st1) ← binary_op_tac_operand_to_register_or_move_float st rhs
    some ((match move_code with | some mv => [mv] | none => []) ++
          [TinyCode.CmpF operand1 operand2, TinyCode.Jlt label], st1)
  | .GteF lhs rhs label => do
    let operand1 ← binary_op_tac_operand_to_opmrl_float st lhs
    let (operand2, move_code, st1) ← binary_op_tac_operand_to_register_or_move_float st rhs
    some ((match move_code with | some mv => [mv] | none => []) ++
          [TinyCode.CmpF operand1 operand2, TinyCode.Jge label], st1)
  | .LteF lhs rhs label => do
    let operand1 ← binary_op_tac_operand_to_opmrl_float st lhs
    let (operand2, move_code, st1) ← binary_op_tac_operand_to_register_or_move_float st rhs
    some ((match move_code with | some mv => [mv] | none => []) ++
          [TinyCode.CmpF operand1 operand2, TinyCode.Jle label], st1)
  | .NeF lhs rhs label => do
    let operand1 ← binary_op_tac_operand_to_opmrl_float st lhs
    let (operand2, move_code, st1) ← binary_op_tac_operand_to_register_or_move_float st rhs
    some ((match move_code with | some mv => [mv] | none => []) ++
          [TinyCode.CmpF operand1 operand2, TinyCode.Jne label], st1)
  | .EqF lhs rhs label => do
    let operand1 ← binary_op_tac_operand_to_opmrl_float st lhs
    let (operand2, move_code, st1) ← binary_op_tac_operand_to_register_or_move_float st rhs
    some ((match move_code with | some mv => [mv] | none => []) ++
          [TinyCode.CmpF operand1 operand2, TinyCode.Jeq label], st1)
  -- The source From<ThreeAddressCode> impl has no arm for the remaining
  -- variants (PushI, PushF, PopI, PopF, Jsr, Ret, FunctionLabel, Link,
  -- Unlink); lowering them is undefined.
  | _ => none

/-- Modelled from the spec: the per-function code-generation driver is not
among the sources; per the spec, state is carried across the instructions
of one function, so the stream is lowered left to right threading the
state. -/
def tinyCodeOfTacSeq (st : CodegenState) :
    List ThreeAddressCode → Option (List TinyCode × CodegenState)
  | [] => some ([], st)
  | tac :: rest => do
    let (code, st1) ← tinyCodeOfTac st tac
    let (code2, st2) ← tinyCodeOfTacSeq st1 rest
    some (code ++ code2, st2)

/-- From<Vec<ThreeAddressCode>> for TinyCodeSequence (asm/tiny.rs): the
body that would emit declarations, lower each instruction and append the
halt is commented out; the impl returns an empty sequence. -/
def tinyCodeSequenceOfVec (_three_adr_code_seq : List ThreeAddressCode) : List TinyCode :=
  []

/-! ## Claim-side definitions, written from the specification's words -/

/-- Taken edges of a block per the spec: if the block's final instruction
carries an explicit branch/jump target label, one edge to the block that
label maps to. -/
def specTakenEdges (labelMap : List (TacLabel × BBLabel))
    (lastTac : ThreeAddressCode) : List BBLabel :=
  match lastTac.get_label_if_branch_or_jump with
  | some t =>
    match assocFind t labelMap with
    | some target => [target]
    | none => []
  | none => []

/-- Fall-through edges of a block per the spec: one edge to the next block
in program order exactly when the final instruction is not an
unconditional jump (and none for the last block). -/
def specFallThroughEdges (lastTac : ThreeAddressCode)
    (post : List (BBLabel × ImmutableBasicBlock)) : List BBLabel :=
  match post with
  | [] => []
  | (l2, _) :: _ => if lastTac.is_unconditional_branch then [] else [l2]

/-- The lvalue a global variable contributes to liveness per the spec: its
int or float identifier lvalue; a string symbol is a constant, not an
assignable variable, and has no lvalue form. -/
def lvalueOfGlobalVar : NonFunctionScopedSymbol → Option LValue
  | .Int name =>
    some (LValue.LValueI (LValueI.Id
      (Symbol.NonFunctionScopedSymbol (NonFunctionScopedSymbol.Int name))))
  | .Float name =>
    some (LValue.LValueF (LValueF.Id
      (Symbol.NonFunctionScopedSymbol (NonFunctionScopedSymbol.Float name))))
  | .String _ _ => none

/-- The set of every global variable of the program, as lvalues. -/
def globalVarLValues (globals : List NonFunctionScopedSymbol) : Finset LValue :=
  (globals.filterMap lvalueOfGlobalVar).toFinset

/-- The int operands of a list that are lvalues, as a set of LValue. -/
def intOperandLValues (ops : List BinaryExprOperandI) : Finset LValue :=
  ops.foldl (fun acc op =>
    match op with
    | .LValue v => insert (LValue.LValueI v) acc
    | .RValue _ => acc) ∅

/-- The float operands of a list that are lvalues, as a set of LValue. -/
def floatOperandLValues (ops : List BinaryExprOperandF) : Finset LValue :=
  ops.foldl (fun acc op =>
    match op with
    | .LValue v => insert (LValue.LValueF v) acc
    | .RValue _ => acc) ∅

/-- GEN per the spec's per-category rules, amended so that Jsr GENs every
global variable: arithmetic and relational instructions GEN their operands
that are lvalues, Store and Push GEN their source when it is an lvalue,
Write GENs the identifier written, Jsr GENs every global variable, and
every other instruction GENs nothing. -/
def specGenSet (globals : List NonFunctionScopedSymbol) :
    ThreeAddressCode → Finset LValue
  | .AddI lhs rhs _ | .SubI lhs rhs _ | .MulI lhs rhs _ | .DivI lhs rhs _ =>
    intOperandLValues [lhs, rhs]
  | .StoreI _ rhs => intOperandLValues [rhs]
  | .ReadI _ => ∅
  | .WriteI identifier => {LValue.LValueI (LValueI.Id identifier)}
  | .AddF lhs rhs _ | .SubF lhs rhs _ | .MulF lhs rhs _ | .DivF lhs rhs _ =>
    floatOperandLValues [lhs, rhs]
  | .StoreF _ rhs => floatOperandLValues [rhs]
  | .ReadF _ => ∅
  | .WriteF identifier => {LValue.LValueF (LValueF.Id identifier)}
  | .GtI lhs rhs _ | .LtI lhs rhs _ | .GteI lhs rhs _
  | .LteI lhs rhs _ | .NeI lhs rhs _ | .EqI lhs rhs _ =>
    intOperandLValues [lhs, rhs]
  | .GtF lhs rhs _ | .LtF lhs rhs _ | .GteF lhs rhs _
  | .LteF lhs rhs _ | .NeF lhs rhs _ | .EqF lhs rhs _ =>
    floatOperandLValues [lhs, rhs]
  | .PushI op => intOperandLValues [op]
  | .PushF op => floatOperandLValues [op]
  | .Jsr _ => globalVarLValues globals
  | _ => ∅

/-- KILL per the spec's per-category rules, a function of the instruction's
shape alone: arithmetic instructions KILL their destination temporary,
Store KILLs its destination lvalue, Read KILLs the identifier read into,
Pop KILLs the popped destination, and every other instruction KILLs
nothing. -/
def specKillSet : ThreeAddressCode → Finset LValue
  | .AddI _ _ temp_result | .SubI _ _ temp_result
  | .MulI _ _ temp_result | .DivI _ _ temp_result =>
    {LValue.LValueI (LValueI.Temp temp_result)}
  | .StoreI lhs _ => {LValue.LValueI lhs}
  | .ReadI identifier => {LValue.LValueI (LValueI.Id identifier)}
  | .AddF _ _ temp_result | .SubF _ _ temp_result
  | .MulF _ _ temp_result | .DivF _ _ temp_result =>
    {LValue.LValueF (LValueF.Temp temp_result)}
  | .StoreF lhs _ => {LValue.LValueF lhs}
  | .ReadF identifier => {LValue.LValueF (LValueF.Id identifier)}
  | .PopI op => {LValue.LValueI op}
  | .PopF op => {LValue.LValueF op}
  | _ => ∅

/-- Iterated register allocation: n calls to Register::new starting from
the given counter, collecting the returned register numbers. -/
def allocateRegisters : Nat → Nat → Option (List Register × Nat)
  | 0, c => some ([], c)
  | n + 1, c =>
    match Register.new c with
    | none => none
    | some (r, c1) =>
      match allocateRegisters n c1 with
      | none => none
      | some (rest, c2) => some (r :: rest, c2)

/-- reset_temp_counter from three_addr_code_ir/mod.rs: stores 1 into the
3AC temporary counter (and touches nothing else). -/
def reset_temp_counter (_temp_counter : Nat) : Nat := 1

/-- The destination register of a Tiny arithmetic instruction. -/
def TinyCode.arithDst : TinyCode → Option Register
  | .AddI _ r | .SubI _ r | .MulI _ r | .DivI _ r => some r
  | .AddF _ r | .SubF _ r | .MulF _ r | .DivF _ r => some r
  | _ => none

/-- State growth across code generation: the register counter never
decreases and no temp-to-register binding is dropped. -/
def CodegenState.le (s1 s2 : CodegenState) : Prop :=
  s1.register_counter ≤ s2.register_counter ∧
  (∀ k, (assocFind k s1.int_register_map).isSome = true →
    (assocFind k s2.int_register_map).isSome = true) ∧
  (∀ k, (assocFind k s1.float_register_map).isSome = true →
    (assocFind k s2.float_register_map).isSome = true)

/-! ## Concrete fixtures for witnesses and counterexamples -/

/-- A global int symbol named A. -/
def symA : Symbol := Symbol.NonFunctionScopedSymbol (NonFunctionScopedSymbol.Int "A")

/-- A global int symbol named B. -/
def symB : Symbol := Symbol.NonFunctionScopedSymbol (NonFunctionScopedSymbol.Int "B")

/-- A global int symbol named C. -/
def symC : Symbol := Symbol.NonFunctionScopedSymbol (NonFunctionScopedSymbol.Int "C")

/-- A three-block function: a conditional branch to the third block, an
unconditional jump to the third block, and a block ending in Ret. -/
def exampleBBFunction : BBFunction :=
  { bbs := [(0, { label := 0, seq := [ThreeAddressCode.GtI (.RValue 1) (.RValue 2) 1] }),
            (1, { label := 1, seq := [ThreeAddressCode.Jump 1] }),
            (2, { label := 2, seq := [ThreeAddressCode.Label 1, ThreeAddressCode.Ret] })],
    tac_label_to_bb_label_map := [(1, 2)] }

/-- The CFG the source builds from exampleBBFunction. -/
def exampleCFG : ControlFlowGraph :=
  { bb_map := [(0, [2, 1]), (1, [2])], bbs := exampleBBFunction.bbs }

/-- Edge contributions of the remaining iterations of the CFG construction
loop to a given block label, used to characterize the loop: the
fall-through edge out of the previous block into the head block, the taken
edge out of the head block, then the contributions of the tail. -/
def suffixEdges (labelMap : List (TacLabel × BBLabel)) :
    Option BBLabel → Bool → List (BBLabel × ImmutableBasicBlock) → BBLabel → List BBLabel
  | _, _, [], _ => []
  | prev, pj, (l, b) :: rest, x =>
    (match prev with
     | some p => if pj = false ∧ x = p then [l] else []
     | none => []) ++
    (match b.lastTac.bind ThreeAddressCode.get_label_if_branch_or_jump with
     | some t =>
       match assocFind t labelMap with
       | some target => if x = l then [target] else []
       | none => []
     | none => []) ++
    suffixEdges labelMap (some l)
      ((b.lastTac.map ThreeAddressCode.is_unconditional_branch).getD true) rest x

/-- Whether an int lvalue is a memory reference (an identifier), matching
the is_lhs_mem_ref flag the StoreI arm of asm/tiny.rs computes. -/
def LValueI.is_mem_ref : LValueI → Bool
  | .Id _ => true
  | .Temp _ => false

/-- Whether a float lvalue is a memory reference (an identifier). -/
def LValueF.is_mem_ref : LValueF → Bool
  | .Id _ => true
  | .Temp _ => false

/-! ## Lemmas about the association-list operations -/

theorem assocFind_append {α : Type} (k : Nat) (l1 l2 : List (Nat × α)) :
    assocFind k (l1 ++ l2) =
      match assocFind k l1 with
      | some v => some v
      | none => assocFind k l2 := by
  induction l1 with
  | nil => simp [assocFind]
  | cons p rest ih =>
    by_cases h : p.1 = k <;> simp [assocFind, h, ih]

theorem assocFind_map_update {α : Type} (k x : Nat) (g : α → α) (m : List (Nat × α)) :
    assocFind x (m.map fun p => if p.1 = k then (p.1, g p.2) else p) =
      if x = k then (assocFind k m).map g else assocFind x m := by
  induction m with
  | nil => by_cases h : x = k <;> simp [assocFind, h]
  | cons p rest ih =>
    by_cases hpk : p.1 = k
    · by_cases hxk : x = k
      · have hpx : p.1 = x := hpk.trans hxk.symm
        simp [assocFind, hpk, hxk, hpx]
      · have hpx : p.1 ≠ x := fun hh => hxk (hh.symm.trans hpk)
        have hkx : ¬ k = x := fun hh => hxk hh.symm
        simp [assocFind, hpk, hxk, hpx, hkx, ih]
    · by_cases hpx : p.1 = x
      · have hxk : x ≠ k := fun hh => hpk (hpx.trans hh)
        simp [assocFind, hpk, hpx, hxk]
      · simp [assocFind, hpk, hpx, ih]

theorem assocFind_mem {α : Type} {k : Nat} {v : α} :
    ∀ {m : List (Nat × α)}, assocFind k m = some v → (k, v) ∈ m := by
  intro m
  induction m with
  | nil => intro h; simp [assocFind] at h
  | cons p rest ih =>
    obtain ⟨p1, p2⟩ := p
    intro h
    by_cases hp : p1 = k
    · have h2 : p2 = v := by simpa [assocFind, hp] using h
      rw [← hp, ← h2]
      exact List.mem_cons_self _ _
    · have h2 : assocFind k rest = some v := by simpa [assocFind, hp] using h
      exact List.mem_cons_of_mem _ (ih h2)

theorem edgesOf_create_edge (m : List (BBLabel × List BBLabel)) (f t x : BBLabel) :
    edgesOf (create_edge m f t) x =
      if x = f then edgesOf m x ++ [t] else edgesOf m x := by
  unfold create_edge edgesOf
  cases h : assocFind f m with
  | some v =>
    rw [assocFind_map_update f x (· ++ [t]) m]
    by_cases hx : x = f <;> simp [hx, h]
  | none =>
    rw [assocFind_append]
    by_cases hx : x = f
    · subst hx
      simp [h, assocFind]
    · have hfx : f ≠ x := fun hh => hx hh.symm
      cases h2 : assocFind x m <;> simp [h2, assocFind, hx, hfx]

theorem assocFind_mapInsert_self {α : Type} (m : List (Nat × α)) (k : Nat) (v : α) :
    assocFind k (mapInsert m k v) = some v := by
  unfold mapInsert
  cases h : assocFind k m with
  | some w =>
    have hg := assocFind_map_update k k (fun _ => v) m
    simp only [if_pos rfl, h] at hg
    exact hg.trans rfl
  | none =>
    rw [assocFind_append, h]
    simp [assocFind]

theorem assocFind_mapInsert_other {α : Type} (m : List (Nat × α)) (k k' : Nat) (v : α)
    (hk : k ≠ k') :
    assocFind k (mapInsert m k' v) = assocFind k m := by
  unfold mapInsert
  cases h : assocFind k' m with
  | some w =>
    have hg := assocFind_map_update k' k (fun _ => v) m
    simp only [if_neg hk] at hg
    exact hg
  | none =>
    rw [assocFind_append]
    cases h2 : assocFind k m with
    | some w => simp
    | none =>
      have hk2 : ¬ k' = k := fun hh => hk hh.symm
      simp [assocFind, hk2]

theorem assocFind_mapInsert_isSome {α : Type} (m : List (Nat × α)) (k k' : Nat) (v : α)
    (h : (assocFind k m).isSome = true) :
    (assocFind k (mapInsert m k' v)).isSome = true := by
  by_cases hk : k = k'
  · subst hk
    rw [assocFind_mapInsert_self]
    rfl
  · rw [assocFind_mapInsert_other m k k' v hk]
    exact h

/-! ## Liveness set lemmas -/

theorem jsrRetGlobalSet_eq_globalVarLValues (globals : List NonFunctionScopedSymbol) :
    jsrRetGlobalSet globals = globalVarLValues globals := by
  unfold jsrRetGlobalSet globalVarLValues
  congr 2
  exact funext fun s => by cases s <;> rfl

/-! ## Claim theorems -/

/-- C10: the whole-stream conversion From<Vec<ThreeAddressCode>> for
TinyCodeSequence returns an empty instruction sequence for every input:
no declarations, no lowered instructions, no halt. -/
theorem c10_vec_to_tiny_returns_empty (three_adr_code_seq : List ThreeAddressCode) :
    tinyCodeSequenceOfVec three_adr_code_seq = [] := rfl

/-- C1 (code-bug evidence): update_in_and_out_sets returns its input
unchanged — the loop body computes each node's out set into a local that
is never written back, never recomputes an in set, and never raises the
updated flag, so the loop stops after one pass. Consequently, on the
single-block CFG holding only WRITEI A, the instruction's IN set stays
empty while (OUT − KILL) ∪ GEN = {A}, so the dataflow equation the claim
states fails after the call. -/
theorem c1_update_in_and_out_sets_noop_violates_dataflow_equation :
    (∀ cfg, updateInAndOutSets cfg = cfg) ∧
    ¬ (∀ p ∈ (updateInAndOutSets (livenessCfgOfCfg []
          { bb_map := [], bbs := [(0, { label := 0, seq := [ThreeAddressCode.WriteI symA] })] })).bbs,
        ∀ d ∈ p.2.seq, d.in_set = (d.out_set \ d.kill_set) ∪ d.gen_set) :=
  ⟨fun _ => rfl, by decide⟩

theorem allocateRegisters_of_le (n : Nat) :
    ∀ c, c + n ≤ 200 → allocateRegisters n c = some (List.range' c n, c + n) := by
  induction n with
  | zero => intro c _; simp [allocateRegisters, List.range']
  | succ n ih =>
    intro c hc
    have h1 : c < 200 := by omega
    have h2 : Register.new c = some (c, c + 1) := by simp [Register.new, h1]
    simp only [allocateRegisters, h2, ih (c + 1) (by omega)]
    simp [List.range']
    omega

theorem allocateRegisters_of_gt (n : Nat) :
    ∀ c, 200 < c + n → 0 < n → allocateRegisters n c = none := by
  induction n with
  | zero => intro c _ h0; omega
  | succ n ih =>
    intro c hc _
    by_cases h1 : c < 200
    · have hn : 0 < n := by omega
      have h2 : Register.new c = some (c, c + 1) := by simp [Register.new, h1]
      simp only [allocateRegisters, h2, ih (c + 1) (by omega) hn]
    · have h2 : Register.new c = none := by simp [Register.new, h1]
      simp only [allocateRegisters, h2]

/-- C7: the register pool is bounded at 200: every call to Register::new
with fewer than 200 registers already handed out succeeds and returns the
next register number (so 200 consecutive calls from a fresh counter return
the distinct numbers 0..199), while requesting more than 200 registers
fails hard (the allocation aborts with no result) rather than returning a
register or a recoverable error. -/
theorem c7_register_pool_bounded :
    (∀ c, c < 200 → Register.new c = some (c, c + 1)) ∧
    allocateRegisters 200 0 = some (List.range 200, 200) ∧
    (List.range 200).Nodup ∧
    (∀ n, 200 < n → allocateRegisters n 0 = none) ∧
    Register.new 200 = none := by
  refine ⟨fun c hc => by simp [Register.new, hc], ?_, List.nodup_range 200, ?_,
    by simp [Register.new]⟩
  · have := allocateRegisters_of_le 200 0 (by omega)
    rw [this, List.range_eq_range']
  · intro n hn
    exact allocateRegisters_of_gt n 0 (by omega) (by omega)

/-- C7 witness: the first call from a fresh counter succeeds with register
0, and requesting 201 registers fails. -/
theorem c7_register_pool_bounded_witness :
    ((0 : Nat) < 200 ∧ Register.new 0 = some (0, 1)) ∧
    (200 < 201 ∧ allocateRegisters 201 0 = none) :=
  ⟨⟨by decide, c7_register_pool_bounded.1 0 (by decide)⟩,
   ⟨by decide, c7_register_pool_bounded.2.2.2.1 201 (by decide)⟩⟩

/-- C4: for every Jsr the GEN set is exactly the set of every global
variable of the program (with empty KILL), and for Ret the initial OUT set
(not the GEN set, which stays empty along with KILL and IN) is exactly
that same set. -/
theorem c4_jsr_gens_globals_ret_out_globals (globals : List NonFunctionScopedSymbol)
    (f : FunctionIdent) :
    ((livenessDecorate globals (ThreeAddressCode.Jsr f)).gen_set = globalVarLValues globals ∧
     (livenessDecorate globals (ThreeAddressCode.Jsr f)).kill_set = ∅) ∧
    ((livenessDecorate globals ThreeAddressCode.Ret).out_set = globalVarLValues globals ∧
     (livenessDecorate globals ThreeAddressCode.Ret).gen_set = ∅ ∧
     (livenessDecorate globals ThreeAddressCode.Ret).in_set = ∅) := by
  simp [livenessDecorate, jsrRetGlobalSet_eq_globalVarLValues]

/-- C3 counterexample: the claim's catch-all — every instruction outside
the listed categories has empty GEN and KILL — fails at Jsr: in a program
with the single global int A, the decoration of JSR gives it a non-empty
GEN set. -/
theorem c3_counterexample_jsr_gen_not_empty :
    ¬ ((livenessDecorate [NonFunctionScopedSymbol.Int "A"]
          (ThreeAddressCode.Jsr "f")).gen_set = ∅ ∧
       (livenessDecorate [NonFunctionScopedSymbol.Int "A"]
          (ThreeAddressCode.Jsr "f")).kill_set = ∅) := by
  decide

set_option maxHeartbeats 1600000 in
/-- C3 amended: GEN and KILL follow the per-category rules — arithmetic
ops GEN their lvalue operands and KILL the destination temporary, Store
GENs an lvalue source and KILLs the destination, Read KILLs and Write GENs
the identifier, relational instructions GEN their lvalue operands with no
KILL, Push GENs an lvalue operand, Pop KILLs the destination — and all
remaining instructions have empty GEN and KILL except Jsr, whose GEN is
the set of every global variable and therefore depends on the program's
globals, not on instruction shape alone; KILL (and GEN of every
instruction other than Jsr) is a function of shape alone. -/
theorem c3_gen_kill_rules_amended (globals g1 g2 : List NonFunctionScopedSymbol)
    (tac : ThreeAddressCode) :
    (livenessDecorate globals tac).gen_set = specGenSet globals tac ∧
    (livenessDecorate globals tac).kill_set = specKillSet tac ∧
    ((∀ f, tac ≠ ThreeAddressCode.Jsr f) →
      (livenessDecorate g1 tac).gen_set = (livenessDecorate g2 tac).gen_set) ∧
    (livenessDecorate g1 tac).kill_set = (livenessDecorate g2 tac).kill_set := by
  refine ⟨?_, ?_, ?_, ?_⟩
  · cases tac <;>
      first
        | rfl
        | (simp only [livenessDecorate, specGenSet,
             jsrRetGlobalSet_eq_globalVarLValues]; done)
        | (rename_i o1 o2 o3
           cases o1 <;> cases o2 <;> rfl)
        | (rename_i o1
           cases o1 <;> rfl)
  · cases tac <;> rfl
  · intro h
    cases tac <;> first | rfl | exact absurd rfl (h _)
  · cases tac <;> rfl

/-- C3 amended witness: the amended rules evaluated at Ret and at Jsr in a
one-global program, and shape-aloneness of GEN at Ret across two different
global lists. -/
theorem c3_gen_kill_rules_amended_witness :
    (livenessDecorate [NonFunctionScopedSymbol.Int "A"] ThreeAddressCode.Ret).gen_set =
      specGenSet [NonFunctionScopedSymbol.Int "A"] ThreeAddressCode.Ret ∧
    (livenessDecorate [NonFunctionScopedSymbol.Int "A"] (ThreeAddressCode.Jsr "f")).gen_set =
      specGenSet [NonFunctionScopedSymbol.Int "A"] (ThreeAddressCode.Jsr "f") ∧
    (livenessDecorate [] ThreeAddressCode.Ret).gen_set =
      (livenessDecorate [NonFunctionScopedSymbol.Int "A"] ThreeAddressCode.Ret).gen_set :=
  ⟨(c3_gen_kill_rules_amended [NonFunctionScopedSymbol.Int "A"] [] [] ThreeAddressCode.Ret).1,
   (c3_gen_kill_rules_amended [NonFunctionScopedSymbol.Int "A"] [] []
      (ThreeAddressCode.Jsr "f")).1,
   (c3_gen_kill_rules_amended [] [] [NonFunctionScopedSymbol.Int "A"]
      ThreeAddressCode.Ret).2.2.1 (fun _ h => ThreeAddressCode.noConfusion h)⟩

/-! ## Code-generation helper lemmas -/

theorem rom_int_bound_temp (st : CodegenState) (temp : Temp) (reg : Register)
    (h : assocFind temp st.int_register_map = some reg) :
    binary_op_tac_operand_to_register_or_move_int st
      (BinaryExprOperandI.LValue (LValueI.Temp temp)) = some (reg, none, st) := by
  simp [binary_op_tac_operand_to_register_or_move_int, h]

theorem rom_float_bound_temp (st : CodegenState) (temp : Temp) (reg : Register)
    (h : assocFind temp st.float_register_map = some reg) :
    binary_op_tac_operand_to_register_or_move_float st
      (BinaryExprOperandF.LValue (LValueF.Temp temp)) = some (reg, none, st) := by
  simp [binary_op_tac_operand_to_register_or_move_float, h]

set_option maxHeartbeats 1600000 in
/-- C5: lowering a binary arithmetic instruction brings the left operand
into a register: a left operand that is a temporary already bound in the
temp-to-register map reuses its register and no move is emitted; any other
left operand gets a freshly allocated register and exactly one move of the
operand into it; in both cases the result temporary is then bound to the
left operand's register — so lowering t1 := A + B; t2 := t1 + C emits a
single move (for A) and allocates no new register for t1 in the second
instruction. -/
theorem c5_binary_left_operand_register_reuse :
    (∀ (st : CodegenState) (lhs rhs : BinaryExprOperandI) (t : Temp)
       (tac : ThreeAddressCode) (out : List TinyCode) (st' : CodegenState),
      (tac = ThreeAddressCode.AddI lhs rhs t ∨ tac = ThreeAddressCode.SubI lhs rhs t ∨
       tac = ThreeAddressCode.MulI lhs rhs t ∨ tac = ThreeAddressCode.DivI lhs rhs t) →
      tinyCodeOfTac st tac = some (out, st') →
      ((∀ temp reg, lhs = BinaryExprOperandI.LValue (LValueI.Temp temp) →
         assocFind temp st.int_register_map = some reg →
         (∃ op, out = [op] ∧ op.arithDst = some reg ∧ op.isMove = false) ∧
         st'.register_counter = st.register_counter ∧
         assocFind t st'.int_register_map = some reg) ∧
       ((∀ temp, lhs ≠ BinaryExprOperandI.LValue (LValueI.Temp temp)) →
         ∃ src op,
           out = [TinyCode.Move src (Opmr.Reg st.register_counter), op] ∧
           op.arithDst = some st.register_counter ∧ op.isMove = false ∧
           st'.register_counter = st.register_counter + 1 ∧
           assocFind t st'.int_register_map = some st.register_counter))) ∧
    (∀ (st : CodegenState) (lhs rhs : BinaryExprOperandF) (t : Temp)
       (tac : ThreeAddressCode) (out : List TinyCode) (st' : CodegenState),
      (tac = ThreeAddressCode.AddF lhs rhs t ∨ tac = ThreeAddressCode.SubF lhs rhs t ∨
       tac = ThreeAddressCode.MulF lhs rhs t ∨ tac = ThreeAddressCode.DivF lhs rhs t) →
      tinyCodeOfTac st tac = some (out, st') →
      ((∀ temp reg, lhs = BinaryExprOperandF.LValue (LValueF.Temp temp) →
         assocFind temp st.float_register_map = some reg →
         (∃ op, out = [op] ∧ op.arithDst = some reg ∧ op.isMove = false) ∧
         st'.register_counter = st.register_counter ∧
         assocFind t st'.float_register_map = some reg) ∧
       ((∀ temp, lhs ≠ BinaryExprOperandF.LValue (LValueF.Temp temp)) →
         ∃ src op,
           out = [TinyCode.Move src (Opmr.Reg st.register_counter), op] ∧
           op.arithDst = some st.register_counter ∧ op.isMove = false ∧
           st'.register_counter = st.register_counter + 1 ∧
           assocFind t st'.float_register_map = some st.register_counter))) ∧
    tinyCodeOfTacSeq initialCodegenState
        [ThreeAddressCode.AddI (.LValue (.Id symA)) (.LValue (.Id symB)) 1,
         ThreeAddressCode.AddI (.LValue (.Temp 1)) (.LValue (.Id symC)) 2] =
      some ([TinyCode.Move (OpmrL.Int (OpmrIL.Location (Opmr.Id symA))) (Opmr.Reg 0),
             TinyCode.AddI (OpmrIL.Location (Opmr.Id symB)) 0,
             TinyCode.AddI (OpmrIL.Location (Opmr.Id symC)) 0],
            { register_counter := 1, int_register_map := [(1, 0), (2, 0)],
              float_register_map := [] }) := by
  refine ⟨?_, ?_, rfl⟩
  · intro st lhs rhs t tac out st' htac hlow
    constructor
    · intro temp reg hl hr
      subst hl
      rcases htac with rfl | rfl | rfl | rfl <;>
        (simp only [tinyCodeOfTac, rom_int_bound_temp st temp reg hr,
           Option.bind_eq_bind, Option.some_bind] at hlow
         cases hop2 : binary_op_tac_operand_to_opmrl_int st rhs with
         | none => rw [hop2] at hlow; simp at hlow
         | some op2 =>
           rw [hop2] at hlow
           simp only [Option.bind_eq_bind, Option.some_bind, Option.some.injEq, Prod.mk.injEq] at hlow
           obtain ⟨hout, hst⟩ := hlow
           subst hout; subst hst
           exact ⟨⟨_, rfl, rfl, rfl⟩, rfl, assocFind_mapInsert_self _ _ _⟩)
    · intro hnt
      rcases htac with rfl | rfl | rfl | rfl <;>
        (by_cases hlt : st.register_counter < 200
         · have hnew : Register.new st.register_counter =
               some (st.register_counter, st.register_counter + 1) := by
             simp [Register.new, hlt]
           cases lhs with
           | LValue lv =>
             cases lv with
             | Temp temp => exact absurd rfl (hnt temp)
             | Id id =>
               simp only [tinyCodeOfTac, binary_op_tac_operand_to_register_or_move_int,
                 move_binary_op_tac_operand_to_register_int, hnew, Option.map_some',
                 Option.bind_eq_bind, Option.some_bind] at hlow
               cases hop2 : binary_op_tac_operand_to_opmrl_int
                   { st with register_counter := st.register_counter + 1 } rhs with
               | none => rw [hop2] at hlow; simp at hlow
               | some op2 =>
                 rw [hop2] at hlow
                 simp only [Option.bind_eq_bind, Option.some_bind, Option.some.injEq, Prod.mk.injEq] at hlow
                 obtain ⟨hout, hst⟩ := hlow
                 subst hout; subst hst
                 exact ⟨_, _, rfl, rfl, rfl, rfl, assocFind_mapInsert_self _ _ _⟩
           | RValue n =>
             simp only [tinyCodeOfTac, binary_op_tac_operand_to_register_or_move_int,
               move_binary_op_tac_operand_to_register_int, hnew, Option.map_some',
               Option.bind_eq_bind, Option.some_bind] at hlow
             cases hop2 : binary_op_tac_operand_to_opmrl_int
                 { st with register_counter := st.register_counter + 1 } rhs with
             | none => rw [hop2] at hlow; simp at hlow
             | some op2 =>
               rw [hop2] at hlow
               simp only [Option.bind_eq_bind, Option.some_bind, Option.some.injEq, Prod.mk.injEq] at hlow
               obtain ⟨hout, hst⟩ := hlow
               subst hout; subst hst
               exact ⟨_, _, rfl, rfl, rfl, rfl, assocFind_mapInsert_self _ _ _⟩
         · have hnew : Register.new st.register_counter = none := by
             simp [Register.new, hlt]
           cases lhs with
           | LValue lv =>
             cases lv with
             | Temp temp => exact absurd rfl (hnt temp)
             | Id id =>
               simp [tinyCodeOfTac, binary_op_tac_operand_to_register_or_move_int,
                 move_binary_op_tac_operand_to_register_int, hnew] at hlow
           | RValue n =>
             simp [tinyCodeOfTac, binary_op_tac_operand_to_register_or_move_int,
               move_binary_op_tac_operand_to_register_int, hnew] at hlow)
  · intro st lhs rhs t tac out st' htac hlow
    constructor
    · intro temp reg hl hr
      subst hl
      rcases htac with rfl | rfl | rfl | rfl <;>
        (simp only [tinyCodeOfTac, rom_float_bound_temp st temp reg hr,
           Option.bind_eq_bind, Option.some_bind] at hlow
         cases hop2 : binary_op_tac_operand_to_opmrl_float st rhs with
         | none => rw [hop2] at hlow; simp at hlow
         | some op2 =>
           rw [hop2] at hlow
           simp only [Option.bind_eq_bind, Option.some_bind, Option.some.injEq, Prod.mk.injEq] at hlow
           obtain ⟨hout, hst⟩ := hlow
           subst hout; subst hst
           exact ⟨⟨_, rfl, rfl, rfl⟩, rfl, assocFind_mapInsert_self _ _ _⟩)
    · intro hnt
      rcases htac with rfl | rfl | rfl | rfl <;>
        (by_cases hlt : st.register_counter < 200
         · have hnew : Register.new st.register_counter =
               some (st.register_counter, st.register_counter + 1) := by
             simp [Register.new, hlt]
           cases lhs with
           | LValue lv =>
             cases lv with
             | Temp temp => exact absurd rfl (hnt temp)
             | Id id =>
               simp only [tinyCodeOfTac, binary_op_tac_operand_to_register_or_move_float,
                 move_binary_op_tac_operand_to_register_float, hnew, Option.map_some',
                 Option.bind_eq_bind, Option.some_bind] at hlow
               cases hop2 : binary_op_tac_operand_to_opmrl_float
                   { st with register_counter := st.register_counter + 1 } rhs with
               | none => rw [hop2] at hlow; simp at hlow
               | some op2 =>
                 rw [hop2] at hlow
                 simp only [Option.bind_eq_bind, Option.some_bind, Option.some.injEq, Prod.mk.injEq] at hlow
                 obtain ⟨hout, hst⟩ := hlow
                 subst hout; subst hst
                 exact ⟨_, _, rfl, rfl, rfl, rfl, assocFind_mapInsert_self _ _ _⟩
           | RValue n =>
             simp only [tinyCodeOfTac, binary_op_tac_operand_to_register_or_move_float,
               move_binary_op_tac_operand_to_register_float, hnew, Option.map_some',
               Option.bind_eq_bind, Option.some_bind] at hlow
             cases hop2 : binary_op_tac_operand_to_opmrl_float
                 { st with register_counter := st.register_counter + 1 } rhs with
             | none => rw [hop2] at hlow; simp at hlow
             | some op2 =>
               rw [hop2] at hlow
               simp only [Option.bind_eq_bind, Option.some_bind, Option.some.injEq, Prod.mk.injEq] at hlow
               obtain ⟨hout, hst⟩ := hlow
               subst hout; subst hst
               exact ⟨_, _, rfl, rfl, rfl, rfl, assocFind_mapInsert_self _ _ _⟩
         · have hnew : Register.new st.register_counter = none := by
             simp [Register.new, hlt]
           cases lhs with
           | LValue lv =>
             cases lv with
             | Temp temp => exact absurd rfl (hnt temp)
             | Id id =>
               simp [tinyCodeOfTac, binary_op_tac_operand_to_register_or_move_float,
                 move_binary_op_tac_operand_to_register_float, hnew] at hlow
           | RValue n =>
             simp [tinyCodeOfTac, binary_op_tac_operand_to_register_or_move_float,
               move_binary_op_tac_operand_to_register_float, hnew] at hlow)

/-- C5 witness: lowering t1 := A + 1 from a fresh state allocates register
0 and emits exactly one move, binding t1 to register 0. -/
theorem c5_binary_left_operand_register_reuse_witness :
    ∃ src op,
      [TinyCode.Move (OpmrL.Int (OpmrIL.Location (Opmr.Id symA))) (Opmr.Reg 0),
       TinyCode.AddI (OpmrIL.Literal 1) 0] =
        [TinyCode.Move src (Opmr.Reg initialCodegenState.register_counter), op] ∧
      op.arithDst = some initialCodegenState.register_counter ∧ op.isMove = false ∧
      ({ register_counter := 1, int_register_map := [(1, 0)],
         float_register_map := [] } : CodegenState).register_counter =
        initialCodegenState.register_counter + 1 ∧
      assocFind 1 ({ register_counter := 1, int_register_map := [(1, 0)], float_register_map := [] } : CodegenState).int_register_map =
        some initialCodegenState.register_counter :=
  (c5_binary_left_operand_register_reuse.1 initialCodegenState
      (.LValue (.Id symA)) (.RValue 1) 1 (ThreeAddressCode.AddI (.LValue (.Id symA)) (.RValue 1) 1)
      [TinyCode.Move (OpmrL.Int (OpmrIL.Location (Opmr.Id symA))) (Opmr.Reg 0),
       TinyCode.AddI (OpmrIL.Literal 1) 0]
      { register_counter := 1, int_register_map := [(1, 0)], float_register_map := [] }
      (Or.inl rfl) rfl).2
    (fun temp h => by exact absurd h (by simp))

theorem opmrl_int_not_mem (st : CodegenState) (rhs : BinaryExprOperandI) (op2 : OpmrIL)
    (h : binary_op_tac_operand_to_opmrl_int st rhs = some op2)
    (hm : rhs.is_mem_ref = false) :
    ∀ y, op2 ≠ OpmrIL.Location (Opmr.Id y) := by
  intro y hne
  subst hne
  cases rhs with
  | LValue lv =>
    cases lv with
    | Temp tp =>
      cases hf : assocFind tp st.int_register_map <;>
        simp [binary_op_tac_operand_to_opmrl_int, hf] at h
    | Id id0 => simp [BinaryExprOperandI.is_mem_ref] at hm
  | RValue n => simp [binary_op_tac_operand_to_opmrl_int] at h

theorem opmrl_float_not_mem (st : CodegenState) (rhs : BinaryExprOperandF) (op2 : OpmrFL)
    (h : binary_op_tac_operand_to_opmrl_float st rhs = some op2)
    (hm : rhs.is_mem_ref = false) :
    ∀ y, op2 ≠ OpmrFL.Location (Opmr.Id y) := by
  intro y hne
  subst hne
  cases rhs with
  | LValue lv =>
    cases lv with
    | Temp tp =>
      cases hf : assocFind tp st.float_register_map <;>
        simp [binary_op_tac_operand_to_opmrl_float, hf] at h
    | Id id0 => simp [BinaryExprOperandF.is_mem_ref] at hm
  | RValue n => simp [binary_op_tac_operand_to_opmrl_float] at h

set_option maxHeartbeats 1600000 in
/-- C6: lowering a StoreI (or StoreF) whose destination is an identifier
and whose source is also a memory reference produces exactly two
instructions — a move of the source into a freshly allocated register,
then a move from that register into the destination — neither of which is
a memory-to-memory move; when at most one operand is a memory reference,
exactly one move (never memory-to-memory) is produced. -/
theorem c6_store_memory_memory_two_moves :
    (∀ (st : CodegenState) (id : Symbol) (rhs : BinaryExprOperandI)
       (out : List TinyCode) (st' : CodegenState) (y : Symbol),
      rhs = BinaryExprOperandI.LValue (LValueI.Id y) →
      tinyCodeOfTac st (ThreeAddressCode.StoreI (LValueI.Id id) rhs) = some (out, st') →
      out = [TinyCode.Move (OpmrL.Int (OpmrIL.Location (Opmr.Id y)))
               (Opmr.Reg st.register_counter),
             TinyCode.Move (OpmrL.Int (OpmrIL.Location (Opmr.Reg st.register_counter)))
               (Opmr.Id id)] ∧
      st'.register_counter = st.register_counter + 1 ∧
      (∀ c ∈ out, c.isMemToMemMove = false)) ∧
    (∀ (st : CodegenState) (lhs : LValueI) (rhs : BinaryExprOperandI)
       (out : List TinyCode) (st' : CodegenState),
      (lhs.is_mem_ref = true → rhs.is_mem_ref = false) →
      tinyCodeOfTac st (ThreeAddressCode.StoreI lhs rhs) = some (out, st') →
      ∃ src dst, out = [TinyCode.Move src dst] ∧
        (TinyCode.Move src dst).isMemToMemMove = false) ∧
    (∀ (st : CodegenState) (id : Symbol) (rhs : BinaryExprOperandF)
       (out : List TinyCode) (st' : CodegenState) (y : Symbol),
      rhs = BinaryExprOperandF.LValue (LValueF.Id y) →
      tinyCodeOfTac st (ThreeAddressCode.StoreF (LValueF.Id id) rhs) = some (out, st') →
      out = [TinyCode.Move (OpmrL.Float (OpmrFL.Location (Opmr.Id y)))
               (Opmr.Reg st.register_counter),
             TinyCode.Move (OpmrL.Float (OpmrFL.Location (Opmr.Reg st.register_counter)))
               (Opmr.Id id)] ∧
      st'.register_counter = st.register_counter + 1 ∧
      (∀ c ∈ out, c.isMemToMemMove = false)) ∧
    (∀ (st : CodegenState) (lhs : LValueF) (rhs : BinaryExprOperandF)
       (out : List TinyCode) (st' : CodegenState),
      (lhs.is_mem_ref = true → rhs.is_mem_ref = false) →
      tinyCodeOfTac st (ThreeAddressCode.StoreF lhs rhs) = some (out, st') →
      ∃ src dst, out = [TinyCode.Move src dst] ∧
        (TinyCode.Move src dst).isMemToMemMove = false) := by
  refine ⟨?_, ?_, ?_, ?_⟩
  · intro st id rhs out st' y hy hlow
    subst hy
    by_cases hlt : st.register_counter < 200
    · have hnew : Register.new st.register_counter =
          some (st.register_counter, st.register_counter + 1) := by
        simp [Register.new, hlt]
      simp [tinyCodeOfTac, BinaryExprOperandI.is_mem_ref,
        move_binary_op_tac_operand_to_register_int, hnew] at hlow
      obtain ⟨hout, hst⟩ := hlow
      subst hout; subst hst
      refine ⟨rfl, rfl, ?_⟩
      intro c hc
      simp only [List.mem_cons, List.not_mem_nil, or_false] at hc
      rcases hc with rfl | rfl <;> rfl
    · have hnew : Register.new st.register_counter = none := by
        simp [Register.new, hlt]
      simp [tinyCodeOfTac, BinaryExprOperandI.is_mem_ref,
        move_binary_op_tac_operand_to_register_int, hnew] at hlow
  · intro st lhs rhs out st' hmem hlow
    cases lhs with
    | Id id =>
      have hrm : rhs.is_mem_ref = false := hmem rfl
      simp only [tinyCodeOfTac, Bool.not_true, Bool.false_or, hrm, Bool.not_false,
        Option.bind_eq_bind, Option.some_bind, if_true] at hlow
      cases hop2 : binary_op_tac_operand_to_opmrl_int st rhs with
      | none => rw [hop2] at hlow; simp at hlow
      | some op2 =>
        rw [hop2] at hlow
        simp only [Option.bind_eq_bind, Option.some_bind, Option.some.injEq,
          Prod.mk.injEq] at hlow
        obtain ⟨hout, hst⟩ := hlow
        subst hout
        refine ⟨OpmrL.Int op2, Opmr.Id id, rfl, ?_⟩
        have hnid := opmrl_int_not_mem st rhs op2 hop2 hrm
        cases op2 with
        | Literal n => rfl
        | Location o =>
          cases o with
          | Reg r => rfl
          | Id y => exact absurd rfl (hnid y)
    | Temp tp =>
      cases hf : assocFind tp st.int_register_map with
      | some r =>
        simp only [tinyCodeOfTac, hf, Bool.not_false, Bool.true_or,
          Option.bind_eq_bind, Option.some_bind, if_true] at hlow
        cases hop2 : binary_op_tac_operand_to_opmrl_int
            { st with int_register_map := mapInsert st.int_register_map tp r } rhs with
        | none => rw [hop2] at hlow; simp at hlow
        | some op2 =>
          rw [hop2] at hlow
          simp only [Option.bind_eq_bind, Option.some_bind, Option.some.injEq,
            Prod.mk.injEq] at hlow
          obtain ⟨hout, hst⟩ := hlow
          subst hout
          refine ⟨OpmrL.Int op2, Opmr.Reg r, rfl, ?_⟩
          cases op2 with
          | Literal n => rfl
          | Location o => cases o <;> rfl
      | none =>
        by_cases hlt : st.register_counter < 200
        · have hnew : Register.new st.register_counter =
              some (st.register_counter, st.register_counter + 1) := by
            simp [Register.new, hlt]
          simp only [tinyCodeOfTac, hf, hnew, Option.map_some', Bool.not_false,
            Bool.true_or, Option.bind_eq_bind, Option.some_bind, if_true] at hlow
          cases hop2 : binary_op_tac_operand_to_opmrl_int
              { st with register_counter := st.register_counter + 1,
                        int_register_map :=
                          mapInsert st.int_register_map tp st.register_counter } rhs with
          | none => rw [hop2] at hlow; simp at hlow
          | some op2 =>
            rw [hop2] at hlow
            simp only [Option.bind_eq_bind, Option.some_bind, Option.some.injEq,
              Prod.mk.injEq] at hlow
            obtain ⟨hout, hst⟩ := hlow
            subst hout
            refine ⟨OpmrL.Int op2, Opmr.Reg st.register_counter, rfl, ?_⟩
            cases op2 with
            | Literal n => rfl
            | Location o => cases o <;> rfl
        · have hnew : Register.new st.register_counter = none := by
            simp [Register.new, hlt]
          simp [tinyCodeOfTac, hf, hnew] at hlow
  · intro st id rhs out st' y hy hlow
    subst hy
    by_cases hlt : st.register_counter < 200
    · have hnew : Register.new st.register_counter =
          some (st.register_counter, st.register_counter + 1) := by
        simp [Register.new, hlt]
      simp [tinyCodeOfTac, BinaryExprOperandF.is_mem_ref,
        move_binary_op_tac_operand_to_register_float, hnew] at hlow
      obtain ⟨hout, hst⟩ := hlow
      subst hout; subst hst
      refine ⟨rfl, rfl, ?_⟩
      intro c hc
      simp only [List.mem_cons, List.not_mem_nil, or_false] at hc
      rcases hc with rfl | rfl <;> rfl
    · have hnew : Register.new st.register_counter = none := by
        simp [Register.new, hlt]
      simp [tinyCodeOfTac, BinaryExprOperandF.is_mem_ref,
        move_binary_op_tac_operand_to_register_float, hnew] at hlow
  · intro st lhs rhs out st' hmem hlow
    cases lhs with
    | Id id =>
      have hrm : rhs.is_mem_ref = false := hmem rfl
      simp only [tinyCodeOfTac, Bool.not_true, Bool.false_or, hrm, Bool.not_false,
        Option.bind_eq_bind, Option.some_bind, if_true] at hlow
      cases hop2 : binary_op_tac_operand_to_opmrl_float st rhs with
      | none => rw [hop2] at hlow; simp at hlow
      | some op2 =>
        rw [hop2] at hlow
        simp only [Option.bind_eq_bind, Option.some_bind, Option.some.injEq,
          Prod.mk.injEq] at hlow
        obtain ⟨hout, hst⟩ := hlow
        subst hout
        refine ⟨OpmrL.Float op2, Opmr.Id id, rfl, ?_⟩
        have hnid := opmrl_float_not_mem st rhs op2 hop2 hrm
        cases op2 with
        | Literal n => rfl
        | Location o =>
          cases o with
          | Reg r => rfl
          | Id y => exact absurd rfl (hnid y)
    | Temp tp =>
      cases hf : assocFind tp st.float_register_map with
      | some r =>
        simp only [tinyCodeOfTac, hf, Bool.not_false, Bool.true_or,
          Option.bind_eq_bind, Option.some_bind, if_true] at hlow
        cases hop2 : binary_op_tac_operand_to_opmrl_float
            { st with float_register_map := mapInsert st.float_register_map tp r } rhs with
        | none => rw [hop2] at hlow; simp at hlow
        | some op2 =>
          rw [hop2] at hlow
          simp only [Option.bind_eq_bind, Option.some_bind, Option.some.injEq,
            Prod.mk.injEq] at hlow
          obtain ⟨hout, hst⟩ := hlow
          subst hout
          refine ⟨OpmrL.Float op2, Opmr.Reg r, rfl, ?_⟩
          cases op2 with
          | Literal n => rfl
          | Location o => cases o <;> rfl
      | none =>
        by_cases hlt : st.register_counter < 200
        · have hnew : Register.new st.register_counter =
              some (st.register_counter, st.register_counter + 1) := by
            simp [Register.new, hlt]
          simp only [tinyCodeOfTac, hf, hnew, Option.map_some', Bool.not_false,
            Bool.true_or, Option.bind_eq_bind, Option.some_bind, if_true] at hlow
          cases hop2 : binary_op_tac_operand_to_opmrl_float
              { st with register_counter := st.register_counter + 1,
                        float_register_map :=
                          mapInsert st.float_register_map tp st.register_counter } rhs with
          | none => rw [hop2] at hlow; simp at hlow
          | some op2 =>
            rw [hop2] at hlow
            simp only [Option.bind_eq_bind, Option.some_bind, Option.some.injEq,
              Prod.mk.injEq] at hlow
            obtain ⟨hout, hst⟩ := hlow
            subst hout
            refine ⟨OpmrL.Float op2, Opmr.Reg st.register_counter, rfl, ?_⟩
            cases op2 with
            | Literal n => rfl
            | Location o => cases o <;> rfl
        · have hnew : Register.new st.register_counter = none := by
            simp [Register.new, hlt]
          simp [tinyCodeOfTac, hf, hnew] at hlow

/-- C6 witness: lowering STOREI with destination A and source B (both
identifiers) from a fresh state yields the two-move sequence through
register 0, with no memory-to-memory move. -/
theorem c6_store_memory_memory_two_moves_witness :
    [TinyCode.Move (OpmrL.Int (OpmrIL.Location (Opmr.Id symB))) (Opmr.Reg 0),
     TinyCode.Move (OpmrL.Int (OpmrIL.Location (Opmr.Reg 0))) (Opmr.Id symA)] =
      [TinyCode.Move (OpmrL.Int (OpmrIL.Location (Opmr.Id symB)))
         (Opmr.Reg initialCodegenState.register_counter),
       TinyCode.Move (OpmrL.Int (OpmrIL.Location
         (Opmr.Reg initialCodegenState.register_counter))) (Opmr.Id symA)] ∧
    ({ register_counter := 1, int_register_map := [], float_register_map := [] } :
        CodegenState).register_counter = initialCodegenState.register_counter + 1 ∧
    (∀ c ∈ [TinyCode.Move (OpmrL.Int (OpmrIL.Location (Opmr.Id symB))) (Opmr.Reg 0),
            TinyCode.Move (OpmrL.Int (OpmrIL.Location (Opmr.Reg 0))) (Opmr.Id symA)],
      c.isMemToMemMove = false) :=
  c6_store_memory_memory_two_moves.1 initialCodegenState symA
    (BinaryExprOperandI.LValue (LValueI.Id symB))
    [TinyCode.Move (OpmrL.Int (OpmrIL.Location (Opmr.Id symB))) (Opmr.Reg 0),
     TinyCode.Move (OpmrL.Int (OpmrIL.Location (Opmr.Reg 0))) (Opmr.Id symA)]
    { register_counter := 1, int_register_map := [], float_register_map := [] }
    symB rfl rfl

/-! ## State-growth lemmas for code generation -/

theorem CodegenState.le_refl (s : CodegenState) : CodegenState.le s s :=
  ⟨Nat.le_refl _, fun _ h => h, fun _ h => h⟩

theorem CodegenState.le_trans {s1 s2 s3 : CodegenState}
    (h1 : CodegenState.le s1 s2) (h2 : CodegenState.le s2 s3) : CodegenState.le s1 s3 :=
  ⟨Nat.le_trans h1.1 h2.1, fun k h => h2.2.1 k (h1.2.1 k h),
   fun k h => h2.2.2 k (h1.2.2 k h)⟩

theorem le_insert_int (st : CodegenState) (k v : Nat) :
    CodegenState.le st { st with int_register_map := mapInsert st.int_register_map k v } :=
  ⟨Nat.le_refl _, fun k0 h => assocFind_mapInsert_isSome _ k0 k v h, fun _ h => h⟩

theorem le_insert_float (st : CodegenState) (k v : Nat) :
    CodegenState.le st { st with float_register_map := mapInsert st.float_register_map k v } :=
  ⟨Nat.le_refl _, fun _ h => h, fun k0 h => assocFind_mapInsert_isSome _ k0 k v h⟩

theorem Register.new_eq (c : Nat) (p : Register × Nat) (h : Register.new c = some p) :
    p = (c, c + 1) := by
  by_cases hlt : c < 200 <;> simp [Register.new, hlt] at h
  exact h.symm

theorem move_rom_int_le (st : CodegenState) (operand : BinaryExprOperandI)
    (r : Register) (mv : TinyCode) (st' : CodegenState)
    (h : move_binary_op_tac_operand_to_register_int st operand = some (r, mv, st')) :
    CodegenState.le st st' := by
  have hcounter : ∀ p : Register × Nat, Register.new st.register_counter = some p →
      CodegenState.le st { st with register_counter := p.2 } := by
    intro p hp
    rw [Register.new_eq _ _ hp]
    exact ⟨Nat.le_succ _, fun _ hk => hk, fun _ hk => hk⟩
  cases operand with
  | LValue lv =>
    cases lv with
    | Temp tp =>
      cases hf : assocFind tp st.int_register_map with
      | none => simp [move_binary_op_tac_operand_to_register_int, hf] at h
      | some reg =>
        cases hn : Register.new st.register_counter with
        | none => simp [move_binary_op_tac_operand_to_register_int, hf, hn] at h
        | some p =>
          simp [move_binary_op_tac_operand_to_register_int, hf, hn] at h
          rw [← h.2.2]
          exact hcounter p hn
    | Id id =>
      cases hn : Register.new st.register_counter with
      | none => simp [move_binary_op_tac_operand_to_register_int, hn] at h
      | some p =>
        simp [move_binary_op_tac_operand_to_register_int, hn] at h
        rw [← h.2.2]
        exact hcounter p hn
  | RValue n =>
    cases hn : Register.new st.register_counter with
    | none => simp [move_binary_op_tac_operand_to_register_int, hn] at h
    | some p =>
      simp [move_binary_op_tac_operand_to_register_int, hn] at h
      rw [← h.2.2]
      exact hcounter p hn

theorem move_rom_float_le (st : CodegenState) (operand : BinaryExprOperandF)
    (r : Register) (mv : TinyCode) (st' : CodegenState)
    (h : move_binary_op_tac_operand_to_register_float st operand = some (r, mv, st')) :
    CodegenState.le st st' := by
  have hcounter : ∀ p : Register × Nat, Register.new st.register_counter = some p →
      CodegenState.le st { st with register_counter := p.2 } := by
    intro p hp
    rw [Register.new_eq _ _ hp]
    exact ⟨Nat.le_succ _, fun _ hk => hk, fun _ hk => hk⟩
  cases operand with
  | LValue lv =>
    cases lv with
    | Temp tp =>
      cases hf : assocFind tp st.float_register_map with
      | none => simp [move_binary_op_tac_operand_to_register_float, hf] at h
      | some reg =>
        cases hn : Register.new st.register_counter with
        | none => simp [move_binary_op_tac_operand_to_register_float, hf, hn] at h
        | some p =>
          simp [move_binary_op_tac_operand_to_register_float, hf, hn] at h
          rw [← h.2.2]
          exact hcounter p hn
    | Id id =>
      cases hn : Register.new st.register_counter with
      | none => simp [move_binary_op_tac_operand_to_register_float, hn] at h
      | some p =>
        simp [move_binary_op_tac_operand_to_register_float, hn] at h
        rw [← h.2.2]
        exact hcounter p hn
  | RValue n =>
    cases hn : Register.new st.register_counter with
    | none => simp [move_binary_op_tac_operand_to_register_float, hn] at h
    | some p =>
      simp [move_binary_op_tac_operand_to_register_float, hn] at h
      rw [← h.2.2]
      exact hcounter p hn

theorem rom_int_le (st : CodegenState) (operand : BinaryExprOperandI)
    (r : Register) (mv : Option TinyCode) (st' : CodegenState)
    (h : binary_op_tac_operand_to_register_or_move_int st operand = some (r, mv, st')) :
    CodegenState.le st st' := by
  cases operand with
  | LValue lv =>
    cases lv with
    | Temp tp =>
      cases hf : assocFind tp st.int_register_map with
      | none => simp [binary_op_tac_operand_to_register_or_move_int, hf] at h
      | some reg =>
        simp [binary_op_tac_operand_to_register_or_move_int, hf] at h
        rw [← h.2.2]
        exact CodegenState.le_refl st
    | Id id =>
      cases hm : move_binary_op_tac_operand_to_register_int st
          (BinaryExprOperandI.LValue (LValueI.Id id)) with
      | none => simp [binary_op_tac_operand_to_register_or_move_int, hm] at h
      | some p =>
        simp [binary_op_tac_operand_to_register_or_move_int, hm] at h
        rw [← h.2.2]
        exact move_rom_int_le st _ p.1 p.2.1 p.2.2 hm
  | RValue n =>
    cases hm : move_binary_op_tac_operand_to_register_int st
        (BinaryExprOperandI.RValue n) with
    | none => simp [binary_op_tac_operand_to_register_or_move_int, hm] at h
    | some p =>
      simp [binary_op_tac_operand_to_register_or_move_int, hm] at h
      rw [← h.2.2]
      exact move_rom_int_le st _ p.1 p.2.1 p.2.2 hm

theorem rom_float_le (st : CodegenState) (operand : BinaryExprOperandF)
    (r : Register) (mv : Option TinyCode) (st' : CodegenState)
    (h : binary_op_tac_operand_to_register_or_move_float st operand = some (r, mv, st')) :
    CodegenState.le st st' := by
  cases operand with
  | LValue lv =>
    cases lv with
    | Temp tp =>
      cases hf : assocFind tp st.float_register_map with
      | none => simp [binary_op_tac_operand_to_register_or_move_float, hf] at h
      | some reg =>
        simp [binary_op_tac_operand_to_register_or_move_float, hf] at h
        rw [← h.2.2]
        exact CodegenState.le_refl st
    | Id id =>
      cases hm : move_binary_op_tac_operand_to_register_float st
          (BinaryExprOperandF.LValue (LValueF.Id id)) with
      | none => simp [binary_op_tac_operand_to_register_or_move_float, hm] at h
      | some p =>
        simp [binary_op_tac_operand_to_register_or_move_float, hm] at h
        rw [← h.2.2]
        exact move_rom_float_le st _ p.1 p.2.1 p.2.2 hm
  | RValue n =>
    cases hm : move_binary_op_tac_operand_to_register_float st
        (BinaryExprOperandF.RValue n) with
    | none => simp [binary_op_tac_operand_to_register_or_move_float, hm] at h
    | some p =>
      simp [binary_op_tac_operand_to_register_or_move_float, hm] at h
      rw [← h.2.2]
      exact move_rom_float_le st _ p.1 p.2.1 p.2.2 hm

set_option maxHeartbeats 1600000 in
theorem tinyCodeOfTac_le (st : CodegenState) (tac : ThreeAddressCode)
    (out : List TinyCode) (st' : CodegenState)
    (h : tinyCodeOfTac st tac = some (out, st')) : CodegenState.le st st' := by
  cases tac with
  | AddI lhs rhs t =>
    simp only [tinyCodeOfTac, Option.bind_eq_bind, Option.bind_eq_some] at h
    obtain ⟨⟨r, mv, st1⟩, h1, op2, h2, h⟩ := h
    simp only [Option.some.injEq, Prod.mk.injEq] at h
    rw [← h.2]
    exact CodegenState.le_trans (rom_int_le st _ r mv st1 h1) (le_insert_int st1 _ r)
  | SubI lhs rhs t =>
    simp only [tinyCodeOfTac, Option.bind_eq_bind, Option.bind_eq_some] at h
    obtain ⟨⟨r, mv, st1⟩, h1, op2, h2, h⟩ := h
    simp only [Option.some.injEq, Prod.mk.injEq] at h
    rw [← h.2]
    exact CodegenState.le_trans (rom_int_le st _ r mv st1 h1) (le_insert_int st1 _ r)
  | MulI lhs rhs t =>
    simp only [tinyCodeOfTac, Option.bind_eq_bind, Option.bind_eq_some] at h
    obtain ⟨⟨r, mv, st1⟩, h1, op2, h2, h⟩ := h
    simp only [Option.some.injEq, Prod.mk.injEq] at h
    rw [← h.2]
    exact CodegenState.le_trans (rom_int_le st _ r mv st1 h1) (le_insert_int st1 _ r)
  | DivI lhs rhs t =>
    simp only [tinyCodeOfTac, Option.bind_eq_bind, Option.bind_eq_some] at h
    obtain ⟨⟨r, mv, st1⟩, h1, op2, h2, h⟩ := h
    simp only [Option.some.injEq, Prod.mk.injEq] at h
    rw [← h.2]
    exact CodegenState.le_trans (rom_int_le st _ r mv st1 h1) (le_insert_int st1 _ r)
  | StoreI lhs rhs =>
    cases lhs with
    | Temp tp =>
      cases hf : assocFind tp st.int_register_map with
      | some r =>
        simp only [tinyCodeOfTac, hf, Option.bind_eq_bind, Option.some_bind,
          Bool.not_false, Bool.true_or, if_true, Option.bind_eq_some] at h
        obtain ⟨op2, h2, h⟩ := h
        simp only [Option.some.injEq, Prod.mk.injEq] at h
        rw [← h.2]
        exact le_insert_int st tp r
      | none =>
        cases hn : Register.new st.register_counter with
        | none => simp [tinyCodeOfTac, hf, hn] at h
        | some p =>
          simp only [tinyCodeOfTac, hf, hn, Option.map_some', Option.bind_eq_bind,
            Option.some_bind, Bool.not_false, Bool.true_or, if_true,
            Option.bind_eq_some] at h
          obtain ⟨op2, h2, h⟩ := h
          simp only [Option.some.injEq, Prod.mk.injEq] at h
          rw [← h.2]
          have hp := Register.new_eq _ _ hn
          refine CodegenState.le_trans (?_ : CodegenState.le st { st with register_counter := p.2 }) ?_
          · rw [hp]
            exact ⟨Nat.le_succ _, fun _ hk => hk, fun _ hk => hk⟩
          · exact le_insert_int { st with register_counter := p.2 } tp p.1
    | Id id =>
      by_cases hm : rhs.is_mem_ref
      · simp only [tinyCodeOfTac, Option.bind_eq_bind, Option.some_bind, hm,
          Bool.not_true, Bool.or_self, Bool.false_eq_true, if_false,
          Option.bind_eq_some] at h
        obtain ⟨⟨r2, mvc, st2⟩, h2, h⟩ := h
        simp only [Option.some.injEq, Prod.mk.injEq] at h
        rw [← h.2]
        exact move_rom_int_le st _ r2 mvc st2 h2
      · simp only [Bool.not_eq_true] at hm
        simp only [tinyCodeOfTac, Option.bind_eq_bind, Option.some_bind, hm,
          Bool.not_true, Bool.not_false, Bool.or_true, if_true,
          Option.bind_eq_some] at h
        obtain ⟨op2, h2, h⟩ := h
        simp only [Option.some.injEq, Prod.mk.injEq] at h
        rw [← h.2]
        exact CodegenState.le_refl st
  | ReadI identifier =>
    simp only [tinyCodeOfTac, Option.some.injEq, Prod.mk.injEq] at h
    rw [← h.2]
    exact CodegenState.le_refl st
  | WriteI identifier =>
    simp only [tinyCodeOfTac, Option.some.injEq, Prod.mk.injEq] at h
    rw [← h.2]
    exact CodegenState.le_refl st
  | AddF lhs rhs t =>
    simp only [tinyCodeOfTac, Option.bind_eq_bind, Option.bind_eq_some] at h
    obtain ⟨⟨r, mv, st1⟩, h1, op2, h2, h⟩ := h
    simp only [Option.some.injEq, Prod.mk.injEq] at h
    rw [← h.2]
    exact CodegenState.le_trans (rom_float_le st _ r mv st1 h1) (le_insert_float st1 _ r)
  | SubF lhs rhs t =>
    simp only [tinyCodeOfTac, Option.bind_eq_bind, Option.bind_eq_some] at h
    obtain ⟨⟨r, mv, st1⟩, h1, op2, h2, h⟩ := h
    simp only [Option.some.injEq, Prod.mk.injEq] at h
    rw [← h.2]
    exact CodegenState.le_trans (rom_float_le st _ r mv st1 h1) (le_insert_float st1 _ r)
  | MulF lhs rhs t =>
    simp only [tinyCodeOfTac, Option.bind_eq_bind, Option.bind_eq_some] at h
    obtain ⟨⟨r, mv, st1⟩, h1, op2, h2, h⟩ := h
    simp only [Option.some.injEq, Prod.mk.injEq] at h
    rw [← h.2]
    exact CodegenState.le_trans (rom_float_le st _ r mv st1 h1) (le_insert_float st1 _ r)
  | DivF lhs rhs t =>
    simp only [tinyCodeOfTac, Option.bind_eq_bind, Option.bind_eq_some] at h
    obtain ⟨⟨r, mv, st1⟩, h1, op2, h2, h⟩ := h
    simp only [Option.some.injEq, Prod.mk.injEq] at h
    rw [← h.2]
    exact CodegenState.le_trans (rom_float_le st _ r mv st1 h1) (le_insert_float st1 _ r)
  | StoreF lhs rhs =>
    cases lhs with
    | Temp tp =>
      cases hf : assocFind tp st.float_register_map with
      | some r =>
        simp only [tinyCodeOfTac, hf, Option.bind_eq_bind, Option.some_bind,
          Bool.not_false, Bool.true_or, if_true, Option.bind_eq_some] at h
        obtain ⟨op2, h2, h⟩ := h
        simp only [Option.some.injEq, Prod.mk.injEq] at h
        rw [← h.2]
        exact le_insert_float st tp r
      | none =>
        cases hn : Register.new st.register_counter with
        | none => simp [tinyCodeOfTac, hf, hn] at h
        | some p =>
          simp only [tinyCodeOfTac, hf, hn, Option.map_some', Option.bind_eq_bind,
            Option.some_bind, Bool.not_false, Bool.true_or, if_true,
            Option.bind_eq_some] at h
          obtain ⟨op2, h2, h⟩ := h
          simp only [Option.some.injEq, Prod.mk.injEq] at h
          rw [← h.2]
          have hp := Register.new_eq _ _ hn
          refine CodegenState.le_trans (?_ : CodegenState.le st { st with register_counter := p.2 }) ?_
          · rw [hp]
            exact ⟨Nat.le_succ _, fun _ hk => hk, fun _ hk => hk⟩
          · exact le_insert_float { st with register_counter := p.2 } tp p.1
    | Id id =>
      by_cases hm : rhs.is_mem_ref
      · simp only [tinyCodeOfTac, Option.bind_eq_bind, Option.some_bind, hm,
          Bool.not_true, Bool.or_self, Bool.false_eq_true, if_false,
          Option.bind_eq_some] at h
        obtain ⟨⟨r2, mvc, st2⟩, h2, h⟩ := h
        simp only [Option.some.injEq, Prod.mk.injEq] at h
        rw [← h.2]
        exact move_rom_float_le st _ r2 mvc st2 h2
      · simp only [Bool.not_eq_true] at hm
        simp only [tinyCodeOfTac, Option.bind_eq_bind, Option.some_bind, hm,
          Bool.not_true, Bool.not_false, Bool.or_true, if_true,
          Option.bind_eq_some] at h
        obtain ⟨op2, h2, h⟩ := h
        simp only [Option.some.injEq, Prod.mk.injEq] at h
        rw [← h.2]
        exact CodegenState.le_refl st
  | ReadF identifier =>
    simp only [tinyCodeOfTac, Option.some.injEq, Prod.mk.injEq] at h
    rw [← h.2]
    exact CodegenState.le_refl st
  | WriteF identifier =>
    simp only [tinyCodeOfTac, Option.some.injEq, Prod.mk.injEq] at h
    rw [← h.2]
    exact CodegenState.le_refl st
  | WriteS identifier =>
    simp only [tinyCodeOfTac, Option.some.injEq, Prod.mk.injEq] at h
    rw [← h.2]
    exact CodegenState.le_refl st
  | Label l =>
    simp only [tinyCodeOfTac, Option.some.injEq, Prod.mk.injEq] at h
    rw [← h.2]
    exact CodegenState.le_refl st
  | Jump l =>
    simp only [tinyCodeOfTac, Option.some.injEq, Prod.mk.injEq] at h
    rw [← h.2]
    exact CodegenState.le_refl st
  | GtI lhs rhs l =>
    simp only [tinyCodeOfTac, Option.bind_eq_bind, Option.bind_eq_some] at h
    obtain ⟨op1, h1, ⟨r, mv, st1⟩, h2, h⟩ := h
    simp only [Option.some.injEq, Prod.mk.injEq] at h
    rw [← h.2]
    exact rom_int_le st _ r mv st1 h2
  | LtI lhs rhs l =>
    simp only [tinyCodeOfTac, Option.bind_eq_bind, Option.bind_eq_some] at h
    obtain ⟨op1, h1, ⟨r, mv, st1⟩, h2, h⟩ := h
    simp only [Option.some.injEq, Prod.mk.injEq] at h
    rw [← h.2]
    exact rom_int_le st _ r mv st1 h2
  | GteI lhs rhs l =>
    simp only [tinyCodeOfTac, Option.bind_eq_bind, Option.bind_eq_some] at h
    obtain ⟨op1, h1, ⟨r, mv, st1⟩, h2, h⟩ := h
    simp only [Option.some.injEq, Prod.mk.injEq] at h
    rw [← h.2]
    exact rom_int_le st _ r mv st1 h2
  | LteI lhs rhs l =>
    simp only [tinyCodeOfTac, Option.bind_eq_bind, Option.bind_eq_some] at h
    obtain ⟨op1, h1, ⟨r, mv, st1⟩, h2, h⟩ := h
    simp only [Option.some.injEq, Prod.mk.injEq] at h
    rw [← h.2]
    exact rom_int_le st _ r mv st1 h2
  | NeI lhs rhs l =>
    simp only [tinyCodeOfTac, Option.bind_eq_bind, Option.bind_eq_some] at h
    obtain ⟨op1, h1, ⟨r, mv, st1⟩, h2, h⟩ := h
    simp only [Option.some.injEq, Prod.mk.injEq] at h
    rw [← h.2]
    exact rom_int_le st _ r mv st1 h2
  | EqI lhs rhs l =>
    simp only [tinyCodeOfTac, Option.bind_eq_bind, Option.bind_eq_some] at h
    obtain ⟨op1, h1, ⟨r, mv, st1⟩, h2, h⟩ := h
    simp only [Option.some.injEq, Prod.mk.injEq] at h
    rw [← h.2]
    exact rom_int_le st _ r mv st1 h2
  | GtF lhs rhs l =>
    simp only [tinyCodeOfTac, Option.bind_eq_bind, Option.bind_eq_some] at h
    obtain ⟨op1, h1, ⟨r, mv, st1⟩, h2, h⟩ := h
    simp only [Option.some.injEq, Prod.mk.injEq] at h
    rw [← h.2]
    exact rom_float_le st _ r mv st1 h2
  | LtF lhs rhs l =>
    simp only [tinyCodeOfTac, Option.bind_eq_bind, Option.bind_eq_some] at h
    obtain ⟨op1, h1, ⟨r, mv, st1⟩, h2, h⟩ := h
    simp only [Option.some.injEq, Prod.mk.injEq] at h
    rw [← h.2]
    exact rom_float_le st _ r mv st1 h2
  | GteF lhs rhs l =>
    simp only [tinyCodeOfTac, Option.bind_eq_bind, Option.bind_eq_some] at h
    obtain ⟨op1, h1, ⟨r, mv, st1⟩, h2, h⟩ := h
    simp only [Option.some.injEq, Prod.mk.injEq] at h
    rw [← h.2]
    exact rom_float_le st _ r mv st1 h2
  | LteF lhs rhs l =>
    simp only [tinyCodeOfTac, Option.bind_eq_bind, Option.bind_eq_some] at h
    obtain ⟨op1, h1, ⟨r, mv, st1⟩, h2, h⟩ := h
    simp only [Option.some.injEq, Prod.mk.injEq] at h
    rw [← h.2]
    exact rom_float_le st _ r mv st1 h2
  | NeF lhs rhs l =>
    simp only [tinyCodeOfTac, Option.bind_eq_bind, Option.bind_eq_some] at h
    obtain ⟨op1, h1, ⟨r, mv, st1⟩, h2, h⟩ := h
    simp only [Option.some.injEq, Prod.mk.injEq] at h
    rw [← h.2]
    exact rom_float_le st _ r mv st1 h2
  | EqF lhs rhs l =>
    simp only [tinyCodeOfTac, Option.bind_eq_bind, Option.bind_eq_some] at h
    obtain ⟨op1, h1, ⟨r, mv, st1⟩, h2, h⟩ := h
    simp only [Option.some.injEq, Prod.mk.injEq] at h
    rw [← h.2]
    exact rom_float_le st _ r mv st1 h2
  | PushI op =>
    simp only [tinyCodeOfTac] at h
    exact Option.noConfusion h
  | PushF op =>
    simp only [tinyCodeOfTac] at h
    exact Option.noConfusion h
  | PopI op =>
    simp only [tinyCodeOfTac] at h
    exact Option.noConfusion h
  | PopF op =>
    simp only [tinyCodeOfTac] at h
    exact Option.noConfusion h
  | Jsr f =>
    simp only [tinyCodeOfTac] at h
    exact Option.noConfusion h
  | Ret =>
    simp only [tinyCodeOfTac] at h
    exact Option.noConfusion h
  | FunctionLabel f =>
    simp only [tinyCodeOfTac] at h
    exact Option.noConfusion h
  | Link f =>
    simp only [tinyCodeOfTac] at h
    exact Option.noConfusion h
  | Unlink =>
    simp only [tinyCodeOfTac] at h
    exact Option.noConfusion h

theorem tinyCodeOfTacSeq_le (fn : List ThreeAddressCode) :
    ∀ st out st', tinyCodeOfTacSeq st fn = some (out, st') → CodegenState.le st st' := by
  induction fn with
  | nil =>
    intro st out st' h
    simp only [tinyCodeOfTacSeq, Option.some.injEq, Prod.mk.injEq] at h
    rw [← h.2]
    exact CodegenState.le_refl st
  | cons tac rest ih =>
    intro st out st' h
    simp only [tinyCodeOfTacSeq, Option.bind_eq_bind, Option.bind_eq_some] at h
    obtain ⟨⟨c1, st1⟩, h1, ⟨c2, st2⟩, h2, h⟩ := h
    simp only [Option.some.injEq, Prod.mk.injEq] at h
    rw [← h.2]
    exact CodegenState.le_trans (tinyCodeOfTac_le st tac c1 st1 h1) (ih st1 c2 st2 h2)

/-- C8 counterexample: the claim — the temp-to-register maps and register
counter are reset at the start of each function, so nothing carries over —
is false. Lowering the one-instruction function t1 := A + 1 ends in a
state with counter 1 and the binding t1 -> r0; that state, not the fresh
one (nothing in asm/tiny.rs ever resets the private statics), is the state
in which the next function's code generation begins, and the difference is
observable: the next function's first instruction t2 := t1 + 2 lowers to a
move-free AddI reusing register 0 from that state, while from a fresh
state it fails (t1 unbound). -/
theorem c8_no_reset_counterexample :
    tinyCodeOfTacSeq initialCodegenState
        [ThreeAddressCode.AddI (.LValue (.Id symA)) (.RValue 1) 1] =
      some ([TinyCode.Move (OpmrL.Int (OpmrIL.Location (Opmr.Id symA))) (Opmr.Reg 0),
             TinyCode.AddI (OpmrIL.Literal 1) 0],
            { register_counter := 1, int_register_map := [(1, 0)],
              float_register_map := [] }) ∧
    ({ register_counter := 1, int_register_map := [(1, 0)], float_register_map := [] } :
        CodegenState) ≠ initialCodegenState ∧
    tinyCodeOfTac
        { register_counter := 1, int_register_map := [(1, 0)], float_register_map := [] }
        (ThreeAddressCode.AddI (.LValue (.Temp 1)) (.RValue 2) 2) =
      some ([TinyCode.AddI (OpmrIL.Literal 2) 0],
            { register_counter := 1, int_register_map := [(1, 0), (2, 0)],
              float_register_map := [] }) ∧
    tinyCodeOfTac initialCodegenState
        (ThreeAddressCode.AddI (.LValue (.Temp 1)) (.RValue 2) 2) = none :=
  ⟨rfl, by decide, rfl, rfl⟩

/-- C8 amended: only the 3AC temporary counter is reset per function
(reset_temp_counter stores 1); the temp-to-register maps and the register
allocation counter are never reset — code generation only grows them (the
counter never decreases, bindings are never dropped), and lowering a
concatenated instruction stream threads the first part's final state
unchanged into the second, so bindings and register numbers from one
function are observable while generating the next. -/
theorem c8_codegen_state_persists_across_functions :
    (∀ n, reset_temp_counter n = 1) ∧
    (∀ (fn : List ThreeAddressCode) (st : CodegenState) (out : List TinyCode)
       (st' : CodegenState),
      tinyCodeOfTacSeq st fn = some (out, st') → CodegenState.le st st') ∧
    (∀ (fn1 fn2 : List ThreeAddressCode) (st : CodegenState),
      tinyCodeOfTacSeq st (fn1 ++ fn2) =
        (tinyCodeOfTacSeq st fn1).bind fun p =>
          (tinyCodeOfTacSeq p.2 fn2).map fun q => (p.1 ++ q.1, q.2)) := by
  refine ⟨fun _ => rfl, fun fn st out st' h => tinyCodeOfTacSeq_le fn st out st' h, ?_⟩
  intro fn1
  induction fn1 with
  | nil =>
    intro fn2 st
    simp only [List.nil_append, tinyCodeOfTacSeq, Option.some_bind]
    cases h2 : tinyCodeOfTacSeq st fn2 with
    | none => rfl
    | some q => simp
  | cons tac rest ih =>
    intro fn2 st
    simp only [List.cons_append, tinyCodeOfTacSeq]
    cases h1 : tinyCodeOfTac st tac with
    | none => rfl
    | some p =>
      simp only [Option.bind_eq_bind, Option.some_bind, List.append_eq, ih fn2 p.2]
      cases h2 : tinyCodeOfTacSeq p.2 rest with
      | none => rfl
      | some q =>
        simp only [Option.some_bind]
        cases h3 : tinyCodeOfTacSeq q.2 fn2 with
        | none => rfl
        | some w => simp [List.append_assoc]

/-- C8 amended witness: the reset of the temporary counter at a concrete
value, and state growth across the concrete one-instruction function of
the counterexample. -/
theorem c8_codegen_state_persists_across_functions_witness :
    reset_temp_counter 57 = 1 ∧
    CodegenState.le initialCodegenState
      { register_counter := 1, int_register_map := [(1, 0)], float_register_map := [] } :=
  ⟨c8_codegen_state_persists_across_functions.1 57,
   c8_codegen_state_persists_across_functions.2.1
     [ThreeAddressCode.AddI (.LValue (.Id symA)) (.RValue 1) 1] initialCodegenState
     [TinyCode.Move (OpmrL.Int (OpmrIL.Location (Opmr.Id symA))) (Opmr.Reg 0),
      TinyCode.AddI (OpmrIL.Literal 1) 0]
     { register_counter := 1, int_register_map := [(1, 0)], float_register_map := [] }
     rfl⟩

/-! ## CFG construction lemmas -/

theorem cfgBuildLoop_edges (labelMap : List (TacLabel × BBLabel)) :
    ∀ (list : List (BBLabel × ImmutableBasicBlock)) (prev : Option BBLabel) (pj : Bool)
      (m r : List (BBLabel × List BBLabel)),
      cfgBuildLoop labelMap list prev pj m = some r →
      ∀ x, edgesOf r x = edgesOf m x ++ suffixEdges labelMap prev pj list x := by
  intro list
  induction list with
  | nil =>
    intro prev pj m r h x
    simp only [cfgBuildLoop, Option.some.injEq] at h
    subst h
    simp [suffixEdges]
  | cons hd rest ih =>
    obtain ⟨l, b⟩ := hd
    intro prev pj m r h x
    cases hlast : b.lastTac with
    | none =>
      simp only [cfgBuildLoop, hlast] at h
      exact Option.noConfusion h
    | some last_tac =>
      cases hlab : last_tac.get_label_if_branch_or_jump with
      | none =>
        cases prev with
        | none =>
          simp only [cfgBuildLoop, hlast, hlab] at h
          rw [ih _ _ _ _ h x]
          simp [suffixEdges, hlast, hlab]
        | some p =>
          cases pj with
          | true =>
            simp [cfgBuildLoop, hlast, hlab] at h
            rw [ih _ _ _ _ h x]
            simp [suffixEdges, hlast, hlab]
          | false =>
            simp [cfgBuildLoop, hlast, hlab] at h
            rw [ih _ _ _ _ h x, edgesOf_create_edge]
            by_cases hxp : x = p <;>
              simp [hxp, suffixEdges, hlast, hlab, List.append_assoc]
      | some tlab =>
        cases hfind : assocFind tlab labelMap with
        | none =>
          cases prev with
          | none => simp [cfgBuildLoop, hlast, hlab, hfind] at h
          | some p => cases pj <;> simp [cfgBuildLoop, hlast, hlab, hfind] at h
        | some target =>
          cases prev with
          | none =>
            simp only [cfgBuildLoop, hlast, hlab, hfind] at h
            rw [ih _ _ _ _ h x, edgesOf_create_edge]
            by_cases hxl : x = l <;>
              simp [hxl, suffixEdges, hlast, hlab, hfind, List.append_assoc]
          | some p =>
            cases pj with
            | true =>
              simp [cfgBuildLoop, hlast, hlab, hfind] at h
              rw [ih _ _ _ _ h x, edgesOf_create_edge]
              by_cases hxl : x = l <;>
                simp [hxl, suffixEdges, hlast, hlab, hfind, List.append_assoc]
            | false =>
              simp [cfgBuildLoop, hlast, hlab, hfind] at h
              rw [ih _ _ _ _ h x, edgesOf_create_edge, edgesOf_create_edge]
              by_cases hxl : x = l
              · subst hxl
                by_cases hxp : x = p
                · subst hxp
                  simp [suffixEdges, hlast, hlab, hfind, List.append_assoc]
                · simp [hxp, suffixEdges, hlast, hlab, hfind, List.append_assoc]
              · by_cases hxp : x = p
                · subst hxp
                  simp [hxl, suffixEdges, hlast, hlab, hfind, List.append_assoc]
                · simp [hxl, hxp, suffixEdges, hlast, hlab, hfind, List.append_assoc]

theorem suffixEdges_eq_nil (labelMap : List (TacLabel × BBLabel)) :
    ∀ (list : List (BBLabel × ImmutableBasicBlock)) (prev : Option BBLabel) (pj : Bool)
      (x : BBLabel), x ∉ list.map Prod.fst → prev ≠ some x →
      suffixEdges labelMap prev pj list x = [] := by
  intro list
  induction list with
  | nil => intro prev pj x _ _; rfl
  | cons hd rest ih =>
    obtain ⟨l, b⟩ := hd
    intro prev pj x hx hprev
    have hxl : x ≠ l := by
      intro hh
      exact hx (by rw [hh]; exact List.mem_cons_self _ _)
    have hfall : (match prev with
        | some p => if pj = false ∧ x = p then [l] else []
        | none => ([] : List BBLabel)) = [] := by
      cases prev with
      | none => rfl
      | some p =>
        have hxp : x ≠ p := fun hh => hprev (by rw [hh])
        simp [hxp]
    have htaken : (match b.lastTac.bind ThreeAddressCode.get_label_if_branch_or_jump with
        | some t =>
          match assocFind t labelMap with
          | some target => if x = l then [target] else []
          | none => []
        | none => ([] : List BBLabel)) = [] := by
      cases hbt : b.lastTac.bind ThreeAddressCode.get_label_if_branch_or_jump with
      | none => rfl
      | some t =>
        cases hf : assocFind t labelMap with
        | none => simp [hf]
        | some target => simp [hf, hxl]
    have hrest : x ∉ rest.map Prod.fst := fun hh =>
      hx (List.mem_cons_of_mem _ hh)
    have hrec := ih (some l) ((b.lastTac.map ThreeAddressCode.is_unconditional_branch).getD true)
      x hrest (by simp [Ne.symm hxl])
    simp only [suffixEdges, hfall, htaken, hrec, List.append_nil, List.nil_append]

theorem suffixEdges_append_skip (labelMap : List (TacLabel × BBLabel)) :
    ∀ (pre : List (BBLabel × ImmutableBasicBlock)) (prev : Option BBLabel) (pj : Bool)
      (tail : List (BBLabel × ImmutableBasicBlock)) (x : BBLabel),
      x ∉ pre.map Prod.fst → prev ≠ some x →
      ∃ prev' pj', prev' ≠ some x ∧
        suffixEdges labelMap prev pj (pre ++ tail) x =
          suffixEdges labelMap prev' pj' tail x := by
  intro pre
  induction pre with
  | nil => intro prev pj tail x _ h2; exact ⟨prev, pj, h2, rfl⟩
  | cons hd pre ih =>
    obtain ⟨l, b⟩ := hd
    intro prev pj tail x hx hprev
    have hxl : x ≠ l := by
      intro hh
      exact hx (by rw [hh]; exact List.mem_cons_self _ _)
    have hfall : (match prev with
        | some p => if pj = false ∧ x = p then [l] else []
        | none => ([] : List BBLabel)) = [] := by
      cases prev with
      | none => rfl
      | some p =>
        have hxp : x ≠ p := fun hh => hprev (by rw [hh])
        simp [hxp]
    have htaken : (match b.lastTac.bind ThreeAddressCode.get_label_if_branch_or_jump with
        | some t =>
          match assocFind t labelMap with
          | some target => if x = l then [target] else []
          | none => []
        | none => ([] : List BBLabel)) = [] := by
      cases hbt : b.lastTac.bind ThreeAddressCode.get_label_if_branch_or_jump with
      | none => rfl
      | some t =>
        cases hf : assocFind t labelMap with
        | none => simp [hf]
        | some target => simp [hf, hxl]
    have hrest : x ∉ pre.map Prod.fst := fun hh => hx (List.mem_cons_of_mem _ hh)
    obtain ⟨prev', pj', hne, heq⟩ := ih (some l)
      ((b.lastTac.map ThreeAddressCode.is_unconditional_branch).getD true) tail x hrest
      (by simp [Ne.symm hxl])
    refine ⟨prev', pj', hne, ?_⟩
    simp only [List.cons_append, suffixEdges, hfall, htaken, List.nil_append,
      List.append_eq, heq]

theorem cfgBuildLoop_find_target (labelMap : List (TacLabel × BBLabel)) :
    ∀ (list : List (BBLabel × ImmutableBasicBlock)) (prev : Option BBLabel) (pj : Bool)
      (m r : List (BBLabel × List BBLabel)),
      cfgBuildLoop labelMap list prev pj m = some r →
      ∀ lb bb, (lb, bb) ∈ list → ∀ lastTac t, bb.lastTac = some lastTac →
        lastTac.get_label_if_branch_or_jump = some t →
        ∃ target, assocFind t labelMap = some target := by
  intro list
  induction list with
  | nil =>
    intro prev pj m r _ lb bb hmem
    exact absurd hmem (List.not_mem_nil _)
  | cons hd rest ih =>
    obtain ⟨l, b⟩ := hd
    intro prev pj m r h lb bb hmem lastTac t hlastTac hlabT
    cases hlast : b.lastTac with
    | none =>
      simp only [cfgBuildLoop, hlast] at h
      exact Option.noConfusion h
    | some last_tac =>
      rcases List.mem_cons.mp hmem with heq | hmem2
      · injection heq with e1 e2
        subst e1; subst e2
        rw [hlast] at hlastTac
        injection hlastTac with e3
        subst e3
        simp only [cfgBuildLoop, hlast, hlabT] at h
        cases hfind : assocFind t labelMap with
        | none => rw [hfind] at h; exact Option.noConfusion h
        | some target => exact ⟨target, rfl⟩
      · cases hlab : last_tac.get_label_if_branch_or_jump with
        | none =>
          simp only [cfgBuildLoop, hlast, hlab] at h
          exact ih _ _ _ _ h lb bb hmem2 lastTac t hlastTac hlabT
        | some tlab =>
          cases hfind : assocFind tlab labelMap with
          | none =>
            simp only [cfgBuildLoop, hlast, hlab, hfind] at h
            exact Option.noConfusion h
          | some target =>
            simp only [cfgBuildLoop, hlast, hlab, hfind] at h
            exact ih _ _ _ _ h lb bb hmem2 lastTac t hlastTac hlabT

theorem create_edge_targets (m : List (BBLabel × List BBLabel)) (f t : BBLabel)
    (K : List BBLabel) (hm : ∀ p ∈ m, ∀ s ∈ p.2, s ∈ K) (ht : t ∈ K) :
    ∀ p ∈ create_edge m f t, ∀ s ∈ p.2, s ∈ K := by
  unfold create_edge
  cases h : assocFind f m with
  | none =>
    intro p hp s hs
    rcases List.mem_append.mp hp with hp1 | hp1
    · exact hm p hp1 s hs
    · have hpe : p = (f, [t]) := by simpa using hp1
      subst hpe
      have hse : s = t := by simpa using hs
      subst hse
      exact ht
  | some v =>
    intro p hp s hs
    rcases List.mem_map.mp hp with ⟨q, hq, hpq⟩
    by_cases hqf : q.1 = f
    · rw [if_pos hqf] at hpq
      subst hpq
      rcases List.mem_append.mp hs with hs1 | hs1
      · exact hm q hq s hs1
      · have hse : s = t := by simpa using hs1
        subst hse
        exact ht
    · rw [if_neg hqf] at hpq
      subst hpq
      exact hm q hq s hs

theorem cfgBuildLoop_targets (labelMap : List (TacLabel × BBLabel)) (K : List BBLabel)
    (hmap : ∀ p ∈ labelMap, p.2 ∈ K) :
    ∀ (list : List (BBLabel × ImmutableBasicBlock)) (prev : Option BBLabel) (pj : Bool)
      (m r : List (BBLabel × List BBLabel)),
      cfgBuildLoop labelMap list prev pj m = some r →
      (∀ q ∈ list, q.1 ∈ K) →
      (∀ p ∈ m, ∀ s ∈ p.2, s ∈ K) →
      ∀ p ∈ r, ∀ s ∈ p.2, s ∈ K := by
  intro list
  induction list with
  | nil =>
    intro prev pj m r h _ hm
    simp only [cfgBuildLoop, Option.some.injEq] at h
    subst h
    exact hm
  | cons hd rest ih =>
    obtain ⟨l, b⟩ := hd
    intro prev pj m r h hK hm
    have hlK : l ∈ K := hK (l, b) (List.mem_cons_self _ _)
    have hrestK : ∀ q ∈ rest, q.1 ∈ K := fun q hq => hK q (List.mem_cons_of_mem _ hq)
    cases hlast : b.lastTac with
    | none =>
      simp only [cfgBuildLoop, hlast] at h
      exact Option.noConfusion h
    | some last_tac =>
      cases hlab : last_tac.get_label_if_branch_or_jump with
      | none =>
        cases prev with
        | none =>
          simp only [cfgBuildLoop, hlast, hlab] at h
          exact ih _ _ _ _ h hrestK hm
        | some p0 =>
          cases pj with
          | true =>
            simp [cfgBuildLoop, hlast, hlab] at h
            exact ih _ _ _ _ h hrestK hm
          | false =>
            simp [cfgBuildLoop, hlast, hlab] at h
            exact ih _ _ _ _ h hrestK (create_edge_targets m p0 l K hm hlK)
      | some tlab =>
        cases hfind : assocFind tlab labelMap with
        | none =>
          cases prev with
          | none => simp [cfgBuildLoop, hlast, hlab, hfind] at h
          | some p0 => cases pj <;> simp [cfgBuildLoop, hlast, hlab, hfind] at h
        | some target =>
          have htK : target ∈ K := hmap (tlab, target) (assocFind_mem hfind)
          cases prev with
          | none =>
            simp only [cfgBuildLoop, hlast, hlab, hfind] at h
            exact ih _ _ _ _ h hrestK (create_edge_targets m l target K hm htK)
          | some p0 =>
            cases pj with
            | true =>
              simp [cfgBuildLoop, hlast, hlab, hfind] at h
              exact ih _ _ _ _ h hrestK (create_edge_targets m l target K hm htK)
            | false =>
              simp [cfgBuildLoop, hlast, hlab, hfind] at h
              exact ih _ _ _ _ h hrestK
                (create_edge_targets (create_edge m p0 l) l target K
                  (create_edge_targets m p0 l K hm hlK) htK)

set_option maxHeartbeats 800000 in
/-- C2: in a CFG built from a BBFunction (with distinct block labels),
every block's successor list is exactly its taken edges followed by its
fall-through edge: the taken edge goes to the block its final
instruction's branch/jump target label maps to (and exists whenever the
final instruction carries such a label), the fall-through edge goes to the
next block in program order and is present exactly when the final
instruction is not an unconditional jump, and a block ending in Ret has no
outgoing edges — so a conditional branch gets both edges and an
unconditional jump only the taken edge. -/
theorem c2_cfg_edge_characterization (f : BBFunction) (cfg : ControlFlowGraph)
    (hsome : cfgOfBBFunction f = some cfg)
    (hnodup : (f.bbs.map Prod.fst).Nodup) :
    (∀ pre l b post lastTac,
       f.bbs = pre ++ (l, b) :: post → b.lastTac = some lastTac →
       edgesOf cfg.bb_map l =
         specTakenEdges f.tac_label_to_bb_label_map lastTac ++
         specFallThroughEdges lastTac post) ∧
    (∀ pre l b post lastTac t,
       f.bbs = pre ++ (l, b) :: post → b.lastTac = some lastTac →
       lastTac.get_label_if_branch_or_jump = some t →
       ∃ target, assocFind t f.tac_label_to_bb_label_map = some target ∧
         target ∈ edgesOf cfg.bb_map l) ∧
    (∀ pre l b post,
       f.bbs = pre ++ (l, b) :: post → b.lastTac = some ThreeAddressCode.Ret →
       edgesOf cfg.bb_map l = []) := by
  rw [cfgOfBBFunction, Option.map_eq_some'] at hsome
  obtain ⟨m, hm, hcfg⟩ := hsome
  subst hcfg
  have key : ∀ pre l b post lastTac,
      f.bbs = pre ++ (l, b) :: post → b.lastTac = some lastTac →
      edgesOf m l =
        specTakenEdges f.tac_label_to_bb_label_map lastTac ++
        specFallThroughEdges lastTac post := by
    intro pre l b post lastTac hsplit hlastTac
    have hnd := hnodup
    rw [hsplit, List.map_append, List.map_cons, List.nodup_append] at hnd
    obtain ⟨hndpre, hndcons, hdisj⟩ := hnd
    rw [List.nodup_cons] at hndcons
    obtain ⟨hlpost, hndpost⟩ := hndcons
    have hlpre : l ∉ pre.map Prod.fst := fun hmem => (hdisj hmem) (List.mem_cons_self _ _)
    have h1 := cfgBuildLoop_edges f.tac_label_to_bb_label_map f.bbs none false [] m hm l
    rw [hsplit] at h1
    obtain ⟨prev', pj', hne, hskip⟩ :=
      suffixEdges_append_skip f.tac_label_to_bb_label_map pre none false ((l, b) :: post) l
        hlpre (by simp)
    rw [hskip] at h1
    have hbind : b.lastTac.bind ThreeAddressCode.get_label_if_branch_or_jump =
        lastTac.get_label_if_branch_or_jump := by rw [hlastTac]; exact rfl
    have hu : (b.lastTac.map ThreeAddressCode.is_unconditional_branch).getD true =
        lastTac.is_unconditional_branch := by rw [hlastTac]; exact rfl
    have hfall : (match prev' with
        | some p => if pj' = false ∧ l = p then [l] else []
        | none => ([] : List BBLabel)) = [] := by
      cases prev' with
      | none => rfl
      | some p =>
        have hlp : l ≠ p := fun hh => hne (by rw [hh])
        simp [hlp]
    have hrest : suffixEdges f.tac_label_to_bb_label_map (some l)
        ((b.lastTac.map ThreeAddressCode.is_unconditional_branch).getD true) post l =
        specFallThroughEdges lastTac post := by
      rw [hu]
      cases post with
      | nil => simp [suffixEdges, specFallThroughEdges]
      | cons hd2 rest2 =>
        obtain ⟨l2, b2⟩ := hd2
        have hl2 : l ≠ l2 := by
          intro hh
          exact hlpost (by rw [hh, List.map_cons]; exact List.mem_cons_self _ _)
        have hlrest2 : l ∉ rest2.map Prod.fst := by
          intro hh
          exact hlpost (by rw [List.map_cons]; exact List.mem_cons_of_mem _ hh)
        have hnil := suffixEdges_eq_nil f.tac_label_to_bb_label_map rest2 (some l2)
          ((b2.lastTac.map ThreeAddressCode.is_unconditional_branch).getD true) l hlrest2
          (by simp [Ne.symm hl2])
        have htaken2 : (match b2.lastTac.bind ThreeAddressCode.get_label_if_branch_or_jump with
            | some t0 =>
              match assocFind t0 f.tac_label_to_bb_label_map with
              | some target => if l = l2 then [target] else []
              | none => []
            | none => ([] : List BBLabel)) = [] := by
          cases hbt : b2.lastTac.bind ThreeAddressCode.get_label_if_branch_or_jump with
          | none => rfl
          | some t0 =>
            cases hf2 : assocFind t0 f.tac_label_to_bb_label_map with
            | none => simp [hf2]
            | some target => simp [hf2, hl2]
        cases hub : lastTac.is_unconditional_branch with
        | true =>
          simp only [suffixEdges, htaken2, hnil, List.append_nil, List.nil_append,
            specFallThroughEdges, hub]
          simp
        | false =>
          simp only [suffixEdges, htaken2, hnil, List.append_nil, List.nil_append,
            specFallThroughEdges, hub]
          simp
    rw [h1]
    have hedges : edgesOf ([] : List (BBLabel × List BBLabel)) l = [] := rfl
    simp only [suffixEdges, hfall, hrest, List.nil_append, hedges, hbind]
    cases hlab : lastTac.get_label_if_branch_or_jump with
    | none => simp [specTakenEdges, hlab]
    | some t0 =>
      cases hfind : assocFind t0 f.tac_label_to_bb_label_map with
      | none => simp [specTakenEdges, hlab, hfind]
      | some target => simp [specTakenEdges, hlab, hfind]
  refine ⟨fun pre l b post lastTac hsplit hlast => key pre l b post lastTac hsplit hlast,
    ?_, ?_⟩
  · intro pre l b post lastTac t hsplit hlastTac hlabT
    have hmem : (l, b) ∈ f.bbs := by
      rw [hsplit]
      exact List.mem_append_right _ (List.mem_cons_self _ _)
    obtain ⟨target, hfind⟩ := cfgBuildLoop_find_target f.tac_label_to_bb_label_map f.bbs
      none false [] m hm l b hmem lastTac t hlastTac hlabT
    refine ⟨target, hfind, ?_⟩
    rw [key pre l b post lastTac hsplit hlastTac]
    simp [specTakenEdges, hlabT, hfind]
  · intro pre l b post hsplit hlast
    rw [key pre l b post ThreeAddressCode.Ret hsplit hlast]
    cases post <;>
      simp [specTakenEdges, specFallThroughEdges,
        ThreeAddressCode.get_label_if_branch_or_jump,
        ThreeAddressCode.is_unconditional_branch]

/-- C2 witness: in the concrete three-block function, the first block (a
conditional branch to label 1, which maps to block 2) has exactly the
taken edge to block 2 followed by the fall-through edge to block 1. -/
theorem c2_cfg_edge_characterization_witness :
    edgesOf exampleCFG.bb_map 0 =
      specTakenEdges exampleBBFunction.tac_label_to_bb_label_map
        (ThreeAddressCode.GtI (.RValue 1) (.RValue 2) 1) ++
      specFallThroughEdges (ThreeAddressCode.GtI (.RValue 1) (.RValue 2) 1)
        [(1, { label := 1, seq := [ThreeAddressCode.Jump 1] }),
         (2, { label := 2, seq := [ThreeAddressCode.Label 1, ThreeAddressCode.Ret] })] :=
  (c2_cfg_edge_characterization exampleBBFunction exampleCFG (by decide) (by decide)).1
    [] 0 { label := 0, seq := [ThreeAddressCode.GtI (.RValue 1) (.RValue 2) 1] }
    [(1, { label := 1, seq := [ThreeAddressCode.Jump 1] }),
     (2, { label := 2, seq := [ThreeAddressCode.Label 1, ThreeAddressCode.Ret] })]
    (ThreeAddressCode.GtI (.RValue 1) (.RValue 2) 1) rfl rfl

/-- C9: every successor label in the bb_map of a CFG built from a
BBFunction whose label map sends TAC labels to its own blocks is a key of
the block map — the graph has no dangling edges. -/
theorem c9_no_dangling_edges (f : BBFunction) (cfg : ControlFlowGraph)
    (hsome : cfgOfBBFunction f = some cfg)
    (hmap : ∀ p ∈ f.tac_label_to_bb_label_map, p.2 ∈ f.bbs.map Prod.fst) :
    ∀ p ∈ cfg.bb_map, ∀ s ∈ p.2, s ∈ cfg.bbs.map Prod.fst := by
  rw [cfgOfBBFunction, Option.map_eq_some'] at hsome
  obtain ⟨m, hm, hcfg⟩ := hsome
  subst hcfg
  exact cfgBuildLoop_targets f.tac_label_to_bb_label_map (f.bbs.map Prod.fst) hmap
    f.bbs none false [] m hm
    (fun q hq => List.mem_map.mpr ⟨q, hq, rfl⟩)
    (fun p hp => absurd hp (List.not_mem_nil _))

/-- C9 witness: in the concrete three-block CFG, the successor 2 recorded
for block 0 is itself a key of the block map. -/
theorem c9_no_dangling_edges_witness :
    (2 : BBLabel) ∈ exampleCFG.bbs.map Prod.fst :=
  c9_no_dangling_edges exampleBBFunction exampleCFG (by decide) (by decide)
    (0, [2, 1]) (by decide) 2 (by decide)
